import Mathlib

/-!
Verification development for the `next-pdf` AI summarization service
(`src/ai/services/chunker.py`, `src/ai/services/summarizer.py`).

Texts are modelled as `List Char` (Python `str` is a sequence of code
points, `len` counts code points, as does `List.length` here).  Python
regex classes `\s`, `\d`, `\w` are modelled over their ASCII parts
(`pyWs`, `Char.isDigit`, word chars); all concrete inputs used in the
theorems below are ASCII, where the model is exact.

Note on the source layout: `summarizer.py` defines the class
`Summarizer` twice.  The first definition (lines 116-404) carries the
async streaming pipeline (`generate_summary_stream` / `process_text` /
`_summarize_chunk_async` / `_merge_chunk_summaries_async`); the second
definition (lines 494-815) carries the synchronous chunked path
(`generate_summary` / `_summarize_with_chunks` / `_merge_chunk_summaries`
/ `_parse_response`) and shadows the first at module level.  Claims cite
methods of both classes; each cited method is embedded from its own
lines below.
-/

/-- Convert a string literal into the `List Char` text representation. -/
def lit (s : String) : List Char := s.data

/-- ASCII part of the Python whitespace class used by `str.strip`,
`str.split` and the regex class `\s`. -/
def pyWs (c : Char) : Bool :=
  c = ' ' || c = '\t' || c = '\n' || c = '\r' || c = '\x0b' || c = '\x0c'

/-- Python `str.strip()`: drop whitespace from both ends. -/
def pyStrip (s : List Char) : List Char :=
  ((s.dropWhile pyWs).reverse.dropWhile pyWs).reverse

/-- Python `str.split(sep)` (non-overlapping, leftmost) on a non-empty
separator, written with a skip counter so that the recursion is
structural.  While `skip > 0` we are consuming the matched separator. -/
def pySplitAux (sep : List Char) : List Char → List Char → Nat → List (List Char)
  | [], acc, _ => [acc.reverse]
  | _ :: rest, acc, skip + 1 => pySplitAux sep rest acc skip
  | c :: rest, acc, 0 =>
    if sep ≠ [] ∧ sep.isPrefixOf (c :: rest) then
      acc.reverse :: pySplitAux sep rest [] (sep.length - 1)
    else
      pySplitAux sep rest (c :: acc) 0

/-- Python `text.split(sep)` for a non-empty separator. -/
def pySplit (sep text : List Char) : List (List Char) :=
  pySplitAux sep text [] 0

/-- Python `text.split(c)` for a single-character separator. -/
def pySplitCharAux (sep : Char) : List Char → List Char → List (List Char)
  | [], acc => [acc.reverse]
  | c :: rest, acc =>
    if c = sep then acc.reverse :: pySplitCharAux sep rest []
    else pySplitCharAux sep rest (c :: acc)

/-- Python `text.split('\n')` and friends. -/
def pySplitChar (sep : Char) (s : List Char) : List (List Char) :=
  pySplitCharAux sep s []

/-- Python `sub in s` (substring containment). -/
def containsSub (sub : List Char) : List Char → Bool
  | [] => sub.isEmpty
  | c :: rest => sub.isPrefixOf (c :: rest) || containsSub sub rest

/-- Python `s.split(sep, 1)`: split at the first occurrence of `sep`,
returning `none` when `sep` does not occur. -/
def splitOnce (sep : List Char) : List Char → Option (List Char × List Char)
  | [] => if sep.isEmpty then some ([], []) else none
  | c :: rest =>
    if sep.isPrefixOf (c :: rest) then some ([], (c :: rest).drop sep.length)
    else (splitOnce sep rest).map (fun p => (c :: p.1, p.2))

/-- Python `s.replace(pat, rep)` (all non-overlapping occurrences,
leftmost first), with a skip counter for structural recursion. -/
def replaceAllAux (pat rep : List Char) : List Char → Nat → List Char
  | [], _ => []
  | _ :: rest, skip + 1 => replaceAllAux pat rep rest skip
  | c :: rest, 0 =>
    if pat ≠ [] ∧ pat.isPrefixOf (c :: rest) then
      rep ++ replaceAllAux pat rep rest (pat.length - 1)
    else
      c :: replaceAllAux pat rep rest 0

/-- Python `s.replace(pat, rep)`. -/
def replaceAll (pat rep s : List Char) : List Char :=
  replaceAllAux pat rep s 0

/-- Python `s.rfind(sub)`: the highest index at which `sub` occurs in
`s`, or `none` when it does not occur. -/
def rfindSub (sub s : List Char) : Option Nat :=
  ((List.range (s.length + 1)).filter (fun i => sub.isPrefixOf (s.drop i))).getLast?

/-- Python `sep.join(parts)`. -/
def joinSep (sep : List Char) : List (List Char) → List Char
  | [] => []
  | s :: rest =>
    s ++ (match rest with
      | [] => []
      | _ :: _ => sep ++ joinSep sep rest)

/-! ## Chunker (`src/ai/services/chunker.py`)

`TextChunker` is a class whose constructor fields `max_chunk_size`,
`overlap_size` and `separator` become explicit parameters `maxSize`,
`ov`, `sep` of the functions below.  The async pipeline instantiates
`TextChunker(max_chunk_size=12000, overlap_size=500)` and the sync one
`TextChunker(max_chunk_size=8000, overlap_size=200)`, both with the
default separator `"\n\n"`. -/

/-- Source `TextChunker._split_by_separator` (chunker.py lines 87-90):
split by the separator and keep only parts with non-empty `strip()`. -/
def split_by_separator (sep text : List Char) : List (List Char) :=
  (pySplit sep text).filter (fun p => pyStrip p ≠ [])

/-- End-of-sentence characters of the regex `(?<=[.!?])\s+`. -/
def sentEnd (c : Char) : Bool := c = '.' || c = '!' || c = '?'

/-- Source sentence splitting `re.split(r'(?<=[.!?])\s+', paragraph)`
(chunker.py lines 95-96).  The Boolean flag is true while the maximal
whitespace run following a sentence terminator is being consumed; the
accumulator holds the current (reversed) token.  Structural recursion on
the text. -/
def reSplitSent : Bool → List Char → List Char → List (List Char)
  | _, [], acc => [acc.reverse]
  | skipWs, [c], acc =>
    if skipWs && pyWs c then [acc.reverse] else [(c :: acc).reverse]
  | skipWs, c1 :: c2 :: rest, acc =>
    if skipWs && pyWs c1 then reSplitSent true (c2 :: rest) acc
    else if sentEnd c1 && pyWs c2 then (c1 :: acc).reverse :: reSplitSent true rest []
    else reSplitSent false (c2 :: rest) (c1 :: acc)

/-- Force-split loop `for i in range(0, len(sentence), stride)` with
`chunk = sentence[i:i+maxSize]` (chunker.py lines 109-111), written with
explicit fuel (initially the text length) so that the recursion is
structural.  A zero stride would raise `ValueError` in the source; it is
unreachable there because `max_chunk_size > overlap_size` in both
instantiations, and is modelled as an empty result. -/
def forceWindowsF (maxSize stride : Nat) : Nat → List Char → List (List Char)
  | 0, _ => []
  | _, [] => []
  | fuel + 1, c :: rest => ((c :: rest).take maxSize) :: forceWindowsF maxSize stride fuel ((c :: rest).drop stride)

/-- Fixed-size windows of stride `stride` and width `maxSize`. -/
def forceWindows (maxSize stride : Nat) (s : List Char) : List (List Char) :=
  if stride = 0 then [] else forceWindowsF maxSize stride s.length s

/-- One iteration of the sentence loop of `_split_large_paragraph`
(chunker.py lines 101-121).  State: produced chunks and the running
`current_chunk`. -/
def slpStep (maxSize ov : Nat) : List (List Char) × List Char → List Char → List (List Char) × List Char
  | (chunks, cur), sentence =>
    if maxSize < sentence.length then
      ((chunks ++ (if cur = [] then [] else [pyStrip cur]))
        ++ forceWindows maxSize (maxSize - ov) sentence, [])
    else
      let test := if cur = [] then sentence else cur ++ [' '] ++ sentence
      if test.length ≤ maxSize then (chunks, test)
      else (chunks ++ (if cur = [] then [] else [pyStrip cur]), sentence)

/-- Source `TextChunker._split_large_paragraph` (chunker.py lines 92-126). -/
def split_large_paragraph (maxSize ov : Nat) (para : List Char) : List (List Char) :=
  let st := (reSplitSent false para []).foldl (slpStep maxSize ov) ([], [])
  st.1 ++ (if st.2 = [] then [] else [pyStrip st.2])

/-- Tail step of `_get_overlap`: fall back to the last word boundary
(chunker.py lines 141-146).  Note the source tests `last_space > 0`, so
an occurrence at index 0 is ignored. -/
def getOverlapSpace (ot : List Char) : List Char :=
  match rfindSub [' '] ot with
  | some j => if 0 < j then ot.drop (j + 1) else ot
  | none => ot

/-- Python `text[-ov:]`, including the quirk that `text[-0:]` is the
whole string. -/
def tailSlice (ov : Nat) (t : List Char) : List Char :=
  if ov = 0 then t else t.drop (t.length - ov)

/-- Source `TextChunker._get_overlap` (chunker.py lines 128-146).  The
source tests `last_period > 0`, so a sentence boundary at index 0 is
ignored, and likewise for the word boundary. -/
def get_overlap (ov : Nat) (t : List Char) : List Char :=
  if t = [] ∨ t.length < ov then []
  else
    match rfindSub (lit ". ") (tailSlice ov t) with
    | some i => if 0 < i then (tailSlice ov t).drop (i + 2) else getOverlapSpace (tailSlice ov t)
    | none => getOverlapSpace (tailSlice ov t)

/-- One iteration of the paragraph loop of `chunk_text` (chunker.py
lines 53-78).  State: produced chunks and the running `current_chunk`. -/
def chunkStep (maxSize ov : Nat) (sep : List Char) : List (List Char) × List Char → List Char → List (List Char) × List Char
  | (chunks, cur), para =>
    if maxSize < para.length then
      ((chunks ++ (if cur = [] then [] else [pyStrip cur]))
        ++ split_large_paragraph maxSize ov para, [])
    else
      let test := if cur = [] then para else cur ++ sep ++ para
      if test.length ≤ maxSize then (chunks, test)
      else
        let olp := get_overlap ov cur
        (chunks ++ (if cur = [] then [] else [pyStrip cur]),
          if olp = [] then para else olp ++ para)

/-- Source `TextChunker.chunk_text` (chunker.py lines 34-85). -/
def chunk_text (maxSize ov : Nat) (sep text : List Char) : List (List Char) :=
  if text = [] then []
  else if text.length ≤ maxSize then [text]
  else
    let st := (split_by_separator sep text).foldl (chunkStep maxSize ov sep) ([], [])
    st.1 ++ (if st.2 = [] then [] else [pyStrip st.2])

/-! Sanity checks of the chunker embedding on tiny concrete inputs. -/

example : chunk_text 8000 200 (lit "\n\n") (lit "hello world") = [lit "hello world"] := by decide
example : chunk_text 8000 200 (lit "\n\n") [] = [] := by decide
example : pySplit (lit "\n\n") (lit "a\n\n\nb") = [lit "a", lit "\nb"] := by decide
example : reSplitSent false (lit "Hi there. Bye! Ok") [] = [lit "Hi there.", lit "Bye!", lit "Ok"] := by decide
example : get_overlap 3 (lit "abcdefghij") = lit "hij" := by decide
example : get_overlap 6 (lit "ab cdefgh") = lit "cdefgh" := by decide
example : chunk_text 10 3 (lit "\n\n") (lit "abcdefghij\n\nklmnopqr")
    = [lit "abcdefghij", lit "hijklmnopqr"] := by decide

/-! ## Merger (`src/ai/services/chunker.py`, lines 148-262) -/

/-- Source `TextChunker._extract_bullets` (chunker.py lines 188-201):
collect bullet lines (prefixes `• `, `- `, `* `, `· `) and `N. `
numbered lines from the stripped lines of a text. -/
def bulletPrefixed (line : List Char) : Bool :=
  [lit "• ", lit "- ", lit "* ", lit "· "].any (fun p => p.isPrefixOf line)

/-- The regex test `re.match(r'^\d+\.\s', line)`. -/
def numberedLine (line : List Char) : Bool :=
  let ds := line.takeWhile Char.isDigit
  !ds.isEmpty &&
    (match line.drop ds.length with
      | '.' :: c :: _ => pyWs c
      | _ => false)

/-- The substitution `re.sub(r'^\d+\.\s*', '', line)` on a line already
known to match `numberedLine`. -/
def numberStripped (line : List Char) : List Char :=
  (line.drop ((line.takeWhile Char.isDigit).length + 1)).dropWhile pyWs

/-- Bullet extraction from one summary text. -/
def extract_bullets (text : List Char) : List (List Char) :=
  (pySplitChar '\n' text).filterMap (fun line0 =>
    let line := pyStrip line0
    if bulletPrefixed line then some (pyStrip (line.drop 2))
    else if numberedLine line then some (numberStripped line)
    else none)

/-- Normalization used by `_deduplicate_bullets` (chunker.py lines
212-214): lowercase, strip, then drop every character outside `\w` and
`\s` (ASCII model: alphanumeric, underscore, whitespace). -/
def normalize_bullet (b : List Char) : List Char :=
  (pyStrip (b.map Char.toLower)).filter
    (fun c => c.isAlphanum || c = '_' || pyWs c)

/-- Loop of `_deduplicate_bullets` (chunker.py lines 208-221); `seen`
models the `seen_normalized` set as the list of normalized forms kept so
far. -/
def dedupGo : List (List Char) → List (List Char) → List (List Char)
  | [], _ => []
  | b :: rest, seen =>
    let n := normalize_bullet b
    if n ∉ seen ∧ 10 < n.length then b :: dedupGo rest (n :: seen)
    else dedupGo rest seen

/-- Source `TextChunker._deduplicate_bullets` (chunker.py lines 203-221). -/
def deduplicate_bullets (bullets : List (List Char)) : List (List Char) :=
  dedupGo bullets []

/-- Header test of `_merge_structured_summaries` (chunker.py line 234):
`line.startswith('## ') or line.startswith('**') and line.endswith('**')`. -/
def headerLine (line : List Char) : Bool :=
  (lit "## ").isPrefixOf line ||
    ((lit "**").isPrefixOf line && (lit "**").isSuffixOf line)

/-- Python `line.strip('#* ')`: strip the characters `#`, `*`, space
from both ends. -/
def headerName (line : List Char) : List Char :=
  ((line.dropWhile (fun c => c = '#' || c = '*' || c = ' ')).reverse.dropWhile
    (fun c => c = '#' || c = '*' || c = ' ')).reverse

/-- Python truthiness of `current_section` (a `None`-or-string value). -/
def secTruthy : Option (List Char) → Bool
  | some n => !n.isEmpty
  | none => false

/-- Insertion into the `sections` dict (chunker.py lines 236-238,
247-249): extend an existing key in place, else append a new key,
preserving dict insertion order. -/
def secInsert (sections : List (List Char × List (List Char))) (name : List Char)
    (content : List (List Char)) : List (List Char × List (List Char)) :=
  if sections.any (fun p => p.1 == name) then
    sections.map (fun p => if p.1 = name then (p.1, p.2 ++ content) else p)
  else sections ++ [(name, content)]

/-- Per-line step of the section scan (chunker.py lines 233-243). -/
def sectionStep :
    (List (List Char × List (List Char)) × Option (List Char) × List (List Char)) →
    List Char →
    (List (List Char × List (List Char)) × Option (List Char) × List (List Char))
  | (secs, curSec, curCont), line =>
    if headerLine line then
      ((if secTruthy curSec ∧ curCont ≠ [] then secInsert secs (curSec.getD []) curCont else secs),
        some (headerName line), [])
    else (secs, curSec, curCont ++ [line])

/-- Per-summary step of `_merge_structured_summaries` (chunker.py lines
228-251), including the final flush into `sections` or `other_content`. -/
def structStep : (List (List Char × List (List Char)) × List (List Char)) → List Char →
    (List (List Char × List (List Char)) × List (List Char))
  | (secs, other), summary =>
    let st := (pySplitChar '\n' summary).foldl sectionStep (secs, none, [])
    if secTruthy st.2.1 ∧ st.2.2 ≠ [] then (secInsert st.1 (st.2.1.getD []) st.2.2, other)
    else if st.2.2 ≠ [] then (st.1, other ++ st.2.2)
    else (st.1, other)

/-- Source `TextChunker._merge_structured_summaries` (chunker.py lines
223-262). -/
def merge_structured_summaries (summaries : List (List Char)) : List Char :=
  let st := summaries.foldl structStep ([], [])
  let parts := (st.1.map (fun p => [lit "## " ++ p.1, joinSep (lit "\n") (p.2.take 50)])).flatten
  joinSep (lit "\n\n")
    (parts ++ (if st.2 = [] then [] else [joinSep (lit "\n") (st.2.take 30)]))

/-- Source `TextChunker.merge_summaries` (chunker.py lines 148-186). -/
def merge_summaries (summaries : List (List Char)) (style : List Char) : List Char :=
  match summaries with
  | [] => []
  | [s] => s
  | _ =>
    if style = lit "bullet_points" then
      let uniq := deduplicate_bullets ((summaries.map extract_bullets).flatten)
      joinSep (lit "\n") ((uniq.take 20).map (fun b => lit "• " ++ b))
    else if style = lit "paragraph" ∨ style = lit "executive" then
      joinSep (lit "\n\n") summaries
    else if style = lit "detailed" ∨ style = lit "academic" then
      merge_structured_summaries summaries
    else
      joinSep (lit "\n\n---\n\n") summaries

example : merge_summaries [lit "• alpha beta gamma", lit "- alpha, beta gamma!\n- tiny"] (lit "bullet_points")
    = lit "• alpha beta gamma" := by decide
example : merge_summaries [lit "a", lit "b"] (lit "paragraph") = lit "a\n\nb" := by decide
example : merge_summaries [lit "solo"] (lit "bullet_points") = lit "solo" := by decide

/-! ## Summarizer constants (`src/ai/services/summarizer.py`, lines 20-25) -/

def MAX_SINGLE_CHUNK_SIZE : Nat := 2000000
def MAX_RECURSIVE_DEPTH : Nat := 3
def MAX_CONCURRENT_CHUNKS : Nat := 5
def MAX_RETRIES : Nat := 3

/-! ## Retry policy (`Summarizer._summarize_chunk_async`, summarizer.py
lines 338-363)

One chunk call is retried up to `MAX_RETRIES` times.  The backend is
modelled as an oracle from the attempt index to the outcome of
`generate_content_async` for that attempt (an `Except`: error string or
response text).  The result triple records the propagated outcome, the
list of backoff waits `2 ** attempt * 2` performed (in seconds), and the
number of attempts made. -/

/-- The retry loop `for attempt in range(MAX_RETRIES)`.  The second
argument is the current attempt index, the third the number of loop
iterations remaining.  When the loop would fall through (zero
iterations), the source returns the empty string (line 363, marked
unreachable there). -/
def retryGo (orc : Nat → Except (List Char) (List Char)) :
    Nat → Nat → Except (List Char) (List Char) × List Nat × Nat
  | _, 0 => (Except.ok [], [], 0)
  | attempt, rem + 1 =>
    match orc attempt with
    | Except.ok r => (Except.ok r, [], 1)
    | Except.error e =>
      if rem = 0 then (Except.error e, [], 1)
      else
        let t := retryGo orc (attempt + 1) rem
        (t.1, (2 ^ attempt * 2) :: t.2.1, t.2.2 + 1)

/-- The retry wrapper with the source constants. -/
def retryRun (orc : Nat → Except (List Char) (List Char)) :
    Except (List Char) (List Char) × List Nat × Nat :=
  retryGo orc 0 MAX_RETRIES

/-- Failure classification of summarizer.py line 350, used by the source
only to choose the wording of the retry log message; the backoff
schedule does not consult it. -/
def is_rate_limit (e : List Char) : Bool :=
  containsSub (lit "429") e || containsSub (lit "Too Many Requests") e ||
    containsSub (lit "quota") (e.map Char.toLower)

example : retryRun (fun _ => Except.error (lit "boom"))
    = (Except.error (lit "boom"), [2, 4], 3) := rfl
example : retryRun (fun i => if i = 0 then Except.error (lit "429") else Except.ok (lit "ok"))
    = (Except.ok (lit "ok"), [2], 2) := rfl

/-! ## Token accounting

The async paths record usage as `tokens_dict["prompt"] +=
int(len(prompt) / 4)` and `tokens_dict["completion"] +=
int(len(response.text) / 4)` (summarizer.py lines 301-303, 344-345,
386-387).  Python `int()` truncates, so on natural lengths this is floor
division by 4. -/

/-- The per-text estimate `int(len(text) / 4)`. -/
def estimateTokens (n : Nat) : Nat := n / 4

/-- One accounting update: add the prompt and completion estimates to
the running `(prompt, completion)` totals. -/
def bumpTokens (t : Nat × Nat) (promptLen respLen : Nat) : Nat × Nat :=
  (t.1 + estimateTokens promptLen, t.2 + estimateTokens respLen)

/-- Python `round(n / 4)` on a natural `n` (exact dyadic value, so this
is round-half-to-even). -/
def pyRound4 (n : Nat) : Nat :=
  if n % 4 ≤ 1 then n / 4
  else if n % 4 = 3 then n / 4 + 1
  else if n / 4 % 2 = 0 then n / 4 else n / 4 + 1

/-! ## Response parsing

Two parsers exist in the source: `Summarizer._parse_response`
(summarizer.py lines 764-779, sync class) and the inline parse of
`generate_summary_stream` (summarizer.py lines 240-246, async class). -/

/-- Source `Summarizer._parse_response` (summarizer.py lines 764-779).
The default title is `title_hint or "Document Summary"` (a falsy —
`none` or empty — hint falls back to the default).  When both markers
occur, the text before the first `SUMMARY:` has every `TITLE:`
occurrence removed, is stripped, its first line is stripped again and
truncated to 100 characters. -/
def parse_response (hint : Option (List Char)) (t : List Char) : List Char × List Char :=
  let title0 := match hint with
    | some h => if h = [] then lit "Document Summary" else h
    | none => lit "Document Summary"
  if containsSub (lit "TITLE:") t then
    match splitOnce (lit "SUMMARY:") t with
    | some (before, after) =>
      (match pySplitChar '\n' (pyStrip (replaceAll (lit "TITLE:") [] before)) with
        | [] => title0
        | l :: _ => (pyStrip l).take 100,
       pyStrip after)
    | none => (title0, t)
  else (title0, t)

/-- Inline title extraction of `generate_summary_stream` (summarizer.py
lines 240-246): same marker tests, but the first line of
`parts[0].replace("TITLE:", "").strip()` is used as the title with no
further strip and no 100-character truncation. -/
def stream_parse (t : List Char) : List Char × List Char :=
  if containsSub (lit "TITLE:") t then
    match splitOnce (lit "SUMMARY:") t with
    | some (before, after) =>
      ((pySplitChar '\n' (pyStrip (replaceAll (lit "TITLE:") [] before))).headD [],
       pyStrip after)
    | none => (lit "Document Summary", t)
  else (lit "Document Summary", t)

example : parse_response none (lit "TITLE: Quarterly Report\nSUMMARY:\nRevenue grew 10%.")
    = (lit "Quarterly Report", lit "Revenue grew 10%.") := by decide
example : stream_parse (lit "TITLE: Quarterly Report\nSUMMARY:\nRevenue grew 10%.")
    = (lit "Quarterly Report", lit "Revenue grew 10%.") := by decide
example : parse_response none (lit "plain text") = (lit "Document Summary", lit "plain text") := by decide

/-! ## Synchronous final merge (`Summarizer._merge_chunk_summaries`,
summarizer.py lines 717-762)

The backend call on the merge prompt is modelled by its outcome `gen`.
On success its text is returned; on any exception the source falls back
to the local `TextChunker.merge_summaries` result instead of
propagating the error. -/

def merge_chunk_summaries (gen : Except (List Char) (List Char))
    (summaries : List (List Char)) (style : List Char) : List Char :=
  match gen with
  | Except.ok r => r
  | Except.error _ => merge_summaries summaries style

/-! ## The async streaming pipeline (`Summarizer.generate_summary_stream`,
summarizer.py lines 158-259)

The external backend is modelled by an environment of oracles:

* `singleResp text`: outcome of the single `generate_content_async`
  call made by `_summarize_single_async` for the document `text`
  (no retry wraps this call in the source);
* `chunkResp i chunk attempt`: outcome of the `generate_content_async`
  call for chunk number `i` (0-based) with text `chunk`, on retry
  attempt `attempt` — `_summarize_chunk_async` wraps it in the retry
  loop `retryGo`;
* `mergeResp sums`: outcome of the `generate_content_async` call of
  `_merge_chunk_summaries_async` on the ordered chunk summaries;
* `pLenSingle` / `pLenChunk` / `pLenMerge`: lengths of the prompts the
  source builds around the text for the three call shapes (the prompt
  templates are ASCII wrappers around the payload; only their lengths
  feed the token accounting);
* `hasModel`: whether `self.model` is configured.

Two deliberate modelling notes, both marked in the source embedding:
line 194 of the source reads `chunks = await self.chunker.chunk_text(...)`
— `chunk_text` is a plain function, so at Python runtime this `await`
on a list raises `TypeError`; `processText` models the evident intended
dataflow (the chunk list), which the batch-level claims are about, while
the runtime-accurate alternative `processTextRun` further below models
the raising `await` and carries the terminal-event claim.
`asyncio.gather` propagates the exception of the
first task that fails in wall-clock time; the embedding deterministically
propagates the first failure in chunk-index order (which failure is
chosen does not matter to any property proved below).  The semaphore
bounding in-flight calls to `MAX_CONCURRENT_CHUNKS` has no observable
effect on the event sequence and is not modelled. -/

structure GenEnv where
  singleResp : List Char → Except (List Char) (List Char)
  chunkResp : Nat → List Char → Nat → Except (List Char) (List Char)
  mergeResp : List (List Char) → Except (List Char) (List Char)
  pLenSingle : List Char → Nat
  pLenChunk : Nat → List Char → Nat
  pLenMerge : List (List Char) → Nat
  hasModel : Bool

/-- The events yielded to the external caller: progress logs, terminal
errors, and the final result `{title, content, prompt_tokens,
completion_tokens}`. -/
inductive Ev
  | log : List Char → Ev
  | err : List Char → Ev
  | result : List Char → List Char → Nat → Nat → Ev

def isErrEv : Ev → Bool
  | Ev.err _ => true
  | _ => false

def isResultEv : Ev → Bool
  | Ev.result _ _ _ _ => true
  | _ => false

/-- Decimal rendering of a number, for the interpolated log messages. -/
def natStr (n : Nat) : List Char := (Nat.repr n).data

/-- Retry-wrapped outcome of one chunk call (the `.1` of `retryGo`
measures only the propagated outcome; waits and attempt counts are
examined separately by the retry theorems). -/
def chunkResult (env : GenEnv) (i : Nat) (c : List Char) : Except (List Char) (List Char) :=
  (retryGo (env.chunkResp i c) 0 MAX_RETRIES).1

/-- The `asyncio.gather` of the chunk tasks: all succeed in index order,
or the batch fails with the error of a failed task. -/
def gatherExcept {E A : Type} : List (Except E A) → Except E (List A)
  | [] => Except.ok []
  | Except.ok a :: rest => (gatherExcept rest).map (fun l => a :: l)
  | Except.error e :: _ => Except.error e

/-- Batch outcome over the enumerated chunks. -/
def gatherChunks (env : GenEnv) (chunks : List (List Char)) : Except (List Char) (List (List Char)) :=
  gatherExcept (chunks.enum.map (fun p => chunkResult env p.1 p.2))

/-- Accounting contribution of one chunk task: a successful chunk call
adds its prompt and completion estimates to the shared totals
(summarizer.py lines 344-345); a failed one adds nothing (the exception
is raised before the accounting lines). -/
def batchStep (env : GenEnv) (t : Nat × Nat) (p : Nat × List Char) : Nat × Nat :=
  match chunkResult env p.1 p.2 with
  | Except.ok r => bumpTokens t (env.pLenChunk p.1 p.2) r.length
  | Except.error _ => t

/-- Token totals after the batch.  The order of the concurrent additions
is immaterial on naturals; the fold is in index order. -/
def batchTokens (env : GenEnv) (chunks : List (List Char)) (toks : Nat × Nat) : Nat × Nat :=
  chunks.enum.foldl (batchStep env) toks

/-- The `yield` log lines for queued chunks (summarizer.py line 203). -/
def queuedLogs (n : Nat) : List Ev :=
  (List.range n).map (fun i =>
    Ev.log (lit "Queued chunk " ++ natStr (i + 1) ++ lit "/" ++ natStr n ++ lit "..."))

/-- The outcome of one `process_text` invocation: the events yielded to
the consumer, the `final_text` outcome (or the propagated exception),
the token totals, and the depth of every `process_text` invocation made,
in call order (head = this invocation). -/
structure PTOut where
  evs : List Ev
  res : Except (List Char) (List Char)
  toks : Nat × Nat
  depths : List Nat

/-- Log line of the forced-direct branch (summarizer.py line 181). -/
def msgDeep (depth : Nat) : Ev :=
  Ev.log (lit "Max recursive depth reached at level " ++ natStr depth ++ lit ". Summarizing directly.")

/-- Log line of the small-text branch (summarizer.py line 187). -/
def msgSingle : Ev := Ev.log (lit "Processing single chunk...")

/-- Log lines yielded before the gather: chunking, chunk count, and one
queued line per chunk (summarizer.py lines 193-203). -/
def preLogs (depth n : Nat) : List Ev :=
  [Ev.log (lit "Chunking text (Level " ++ natStr depth ++ lit ")..."),
   Ev.log (lit "Created " ++ natStr n ++ lit " chunks. Processing in parallel...")]
    ++ queuedLogs n

/-- Log lines yielded after a successful gather, before the merge
decision (summarizer.py lines 212, 218). -/
def pre2Logs (depth n : Nat) : List Ev :=
  preLogs depth n
    ++ [Ev.log (lit "All " ++ natStr n ++ lit " chunks processed successfully."),
        Ev.log (lit "Merging chunk summaries...")]

/-- Log line of the recursion branch (summarizer.py line 223). -/
def msgRecurse (len depth1 : Nat) : Ev :=
  Ev.log (lit "Merged summary is still large (" ++ natStr len
    ++ lit " chars). Recursively summarizing (Level " ++ natStr depth1 ++ lit ")...")

/-- Log line of the finalizing branch (summarizer.py line 229). -/
def msgFinalizing : Ev := Ev.log (lit "Finalizing merged summary...")

/-- Source `process_text` (summarizer.py lines 179-231), the recursive
generator at the heart of `generate_summary_stream`. -/
def processText (env : GenEnv) (text : List Char) (depth : Nat) (toks : Nat × Nat) : PTOut :=
  if MAX_RECURSIVE_DEPTH < depth then
    match env.singleResp text with
    | Except.ok r => ⟨[msgDeep depth], Except.ok r, bumpTokens toks (env.pLenSingle text) r.length, [depth]⟩
    | Except.error e => ⟨[msgDeep depth], Except.error e, toks, [depth]⟩
  else if text.length ≤ MAX_SINGLE_CHUNK_SIZE then
    match env.singleResp text with
    | Except.ok r => ⟨[msgSingle], Except.ok r, bumpTokens toks (env.pLenSingle text) r.length, [depth]⟩
    | Except.error e => ⟨[msgSingle], Except.error e, toks, [depth]⟩
  else
    let chunks := chunk_text 12000 500 (lit "\n\n") text
    match gatherChunks env chunks with
    | Except.error e =>
      ⟨preLogs depth chunks.length ++ [Ev.err (lit "Parallel processing failed: " ++ e)],
        Except.error e, batchTokens env chunks toks, [depth]⟩
    | Except.ok sums =>
      let merged := joinSep (lit "\n\n") sums
      if MAX_SINGLE_CHUNK_SIZE < merged.length then
        let out := processText env merged (depth + 1) (batchTokens env chunks toks)
        ⟨pre2Logs depth chunks.length ++ [msgRecurse merged.length (depth + 1)] ++ out.evs,
          out.res, out.toks, depth :: out.depths⟩
      else
        match env.mergeResp sums with
        | Except.ok r =>
          ⟨pre2Logs depth chunks.length ++ [msgFinalizing], Except.ok r,
            bumpTokens (batchTokens env chunks toks) (env.pLenMerge sums) r.length, [depth]⟩
        | Except.error e =>
          ⟨pre2Logs depth chunks.length ++ [msgFinalizing], Except.error e,
            batchTokens env chunks toks, [depth]⟩
termination_by MAX_RECURSIVE_DEPTH + 2 - depth
decreasing_by simp_wf; omega

/-- Source `generate_summary_stream` (summarizer.py lines 158-259): the
missing-key guard, the initial log, the drive of `process_text` (ferrying
every non-`final_text` event to the caller), the inline title parse, the
single `result` event on success, and the `except` clause that turns a
propagated exception into a terminal `error` event. -/
def generate_summary_stream (env : GenEnv) (text : List Char) : List Ev :=
  if !env.hasModel then [Ev.err (lit "Gemini API key not configured")]
  else
    let out := processText env text 1 (0, 0)
    Ev.log (lit "Analyzing document connection (" ++ natStr text.length ++ lit " chars)...") ::
      (match out.res with
       | Except.ok ft =>
         let p := stream_parse ft
         out.evs ++ [Ev.result p.1 p.2 out.toks.1 out.toks.2]
       | Except.error e => out.evs ++ [Ev.err e])

/-- Outcome of one invocation of the runtime-accurate `process_text`
variant: yielded events, the `final_text` outcome or propagated
exception, and the token totals. -/
structure RTOut where
  evs : List Ev
  res : Except (List Char) (List Char)
  toks : Nat × Nat

/-- Runtime-accurate variant of `process_text` (summarizer.py lines
179-231).  `processText` above models line 194
(`chunks = await self.chunker.chunk_text(...)`) as producing the chunk
list — the evident intended dataflow, which the batch-level claims are
about.  At CPython runtime, however, `chunk_text` is a plain function
and `await` on its list result raises `TypeError` at line 194, before
any chunk task is created and before the inner `try/except` around the
gather (lines 210-215); the recursion at line 224 lies beyond that
point and is unreachable as well.  This definition follows those actual
semantics: the chunking branch yields the line-193 log and then
propagates the `TypeError` (the runtime message quotes the word await;
the error text is irrelevant to the theorems about this definition). -/
def processTextRun (env : GenEnv) (text : List Char) (depth : Nat) (toks : Nat × Nat) : RTOut :=
  if MAX_RECURSIVE_DEPTH < depth then
    match env.singleResp text with
    | Except.ok r => ⟨[msgDeep depth], Except.ok r, bumpTokens toks (env.pLenSingle text) r.length⟩
    | Except.error e => ⟨[msgDeep depth], Except.error e, toks⟩
  else if text.length ≤ MAX_SINGLE_CHUNK_SIZE then
    match env.singleResp text with
    | Except.ok r => ⟨[msgSingle], Except.ok r, bumpTokens toks (env.pLenSingle text) r.length⟩
    | Except.error e => ⟨[msgSingle], Except.error e, toks⟩
  else
    ⟨[Ev.log (lit "Chunking text (Level " ++ natStr depth ++ lit ")...")],
      Except.error (lit "TypeError: object list can not be used in await expression"), toks⟩

/-- Source `generate_summary_stream` (summarizer.py lines 158-259)
driving the runtime-accurate `processTextRun`: missing-key guard,
initial log, event ferrying, inline title parse, one `result` event on
success, and the outer `except` that turns any propagated exception
into a terminal `error` event. -/
def generate_summary_stream_run (env : GenEnv) (text : List Char) : List Ev :=
  if !env.hasModel then [Ev.err (lit "Gemini API key not configured")]
  else
    let out := processTextRun env text 1 (0, 0)
    Ev.log (lit "Analyzing document connection (" ++ natStr text.length ++ lit " chars)...") ::
      (match out.res with
       | Except.ok ft =>
         let p := stream_parse ft
         out.evs ++ [Ev.result p.1 p.2 out.toks.1 out.toks.2]
       | Except.error e => out.evs ++ [Ev.err e])

/-! ## Chunk-size bounds (claims C2 and C9) -/

theorem pyStrip_length_le (s : List Char) : (pyStrip s).length ≤ s.length := by
  unfold pyStrip
  calc ((s.dropWhile pyWs).reverse.dropWhile pyWs).reverse.length
      = ((s.dropWhile pyWs).reverse.dropWhile pyWs).length := List.length_reverse _
    _ ≤ (s.dropWhile pyWs).reverse.length := (List.dropWhile_sublist pyWs).length_le
    _ = (s.dropWhile pyWs).length := List.length_reverse _
    _ ≤ s.length := (List.dropWhile_sublist pyWs).length_le

theorem getOverlapSpace_length_le (ot : List Char) : (getOverlapSpace ot).length ≤ ot.length := by
  unfold getOverlapSpace
  cases rfindSub [' '] ot with
  | none => exact le_rfl
  | some j =>
    by_cases h : 0 < j
    · simp [h, List.length_drop]
    · simp [h]

theorem tailSlice_length (ov : Nat) (t : List Char) (h1 : 1 ≤ ov) (h2 : ov ≤ t.length) :
    (tailSlice ov t).length = ov := by
  unfold tailSlice
  rw [if_neg (by omega), List.length_drop]
  omega

theorem get_overlap_length_le (ov : Nat) (t : List Char) (h1 : 1 ≤ ov) :
    (get_overlap ov t).length ≤ ov := by
  unfold get_overlap
  by_cases h : t = [] ∨ t.length < ov
  · simp [h]
  · rw [if_neg h]
    push_neg at h
    have hts : (tailSlice ov t).length = ov := tailSlice_length ov t h1 h.2
    cases hr : rfindSub (lit ". ") (tailSlice ov t) with
    | none => simpa [hts] using getOverlapSpace_length_le (tailSlice ov t)
    | some i =>
      by_cases hi : 0 < i
      · simp only [hi, if_true]
        calc ((tailSlice ov t).drop (i + 2)).length
            ≤ (tailSlice ov t).length := by simp [List.length_drop]
          _ = ov := hts
      · simp only [hi, if_false]
        simpa [hts] using getOverlapSpace_length_le (tailSlice ov t)

theorem forceWindowsF_mem_length (m st fuel : Nat) :
    ∀ s : List Char, ∀ c ∈ forceWindowsF m st fuel s, c.length ≤ m := by
  induction fuel with
  | zero => intro s c hc; simp [forceWindowsF] at hc
  | succ fuel ih =>
    intro s c hc
    cases s with
    | nil => simp [forceWindowsF] at hc
    | cons a rest =>
      simp only [forceWindowsF, List.mem_cons] at hc
      rcases hc with h | h
      · subst h; exact List.length_take_le _ _
      · exact ih _ _ h

theorem forceWindows_mem_length (m st : Nat) (s : List Char) :
    ∀ c ∈ forceWindows m st s, c.length ≤ m := by
  intro c hc
  unfold forceWindows at hc
  by_cases h : st = 0
  · simp [h] at hc
  · rw [if_neg h] at hc
    exact forceWindowsF_mem_length m st s.length s c hc

theorem slpStep_bound (maxSize ov : Nat) (chunks : List (List Char)) (cur sentence : List Char)
    (h1 : ∀ c ∈ chunks, c.length ≤ maxSize) (h2 : cur.length ≤ maxSize) :
    (∀ c ∈ (slpStep maxSize ov (chunks, cur) sentence).1, c.length ≤ maxSize) ∧
      (slpStep maxSize ov (chunks, cur) sentence).2.length ≤ maxSize := by
  simp only [slpStep]
  by_cases hbig : maxSize < sentence.length
  · rw [if_pos hbig]
    refine ⟨?_, by simp⟩
    intro c hc
    simp only [List.mem_append] at hc
    rcases hc with (hc | hc) | hc
    · exact h1 c hc
    · by_cases hcur : cur = []
      · simp [hcur] at hc
      · rw [if_neg hcur] at hc
        simp only [List.mem_singleton] at hc
        subst hc
        exact le_trans (pyStrip_length_le cur) h2
    · exact forceWindows_mem_length _ _ _ c hc
  · rw [if_neg hbig]
    have hsent : sentence.length ≤ maxSize := Nat.le_of_not_lt hbig
    by_cases htest : (if cur = [] then sentence else cur ++ [' '] ++ sentence).length ≤ maxSize
    · rw [if_pos htest]
      exact ⟨h1, htest⟩
    · rw [if_neg htest]
      refine ⟨?_, hsent⟩
      intro c hc
      simp only [List.mem_append] at hc
      rcases hc with hc | hc
      · exact h1 c hc
      · by_cases hcur : cur = []
        · simp [hcur] at hc
        · rw [if_neg hcur] at hc
          simp only [List.mem_singleton] at hc
          subst hc
          exact le_trans (pyStrip_length_le cur) h2

theorem slp_fold_bound (maxSize ov : Nat) (sentences : List (List Char)) :
    ∀ st : List (List Char) × List Char,
      (∀ c ∈ st.1, c.length ≤ maxSize) → st.2.length ≤ maxSize →
      (∀ c ∈ (sentences.foldl (slpStep maxSize ov) st).1, c.length ≤ maxSize) ∧
        (sentences.foldl (slpStep maxSize ov) st).2.length ≤ maxSize := by
  induction sentences with
  | nil => intro st h1 h2; exact ⟨h1, h2⟩
  | cons sentence rest ih =>
    intro st h1 h2
    obtain ⟨chunks, cur⟩ := st
    rw [List.foldl_cons]
    have hs := slpStep_bound maxSize ov chunks cur sentence h1 h2
    exact ih _ hs.1 hs.2

theorem split_large_paragraph_bound (maxSize ov : Nat) (para : List Char) :
    ∀ c ∈ split_large_paragraph maxSize ov para, c.length ≤ maxSize := by
  intro c hc
  unfold split_large_paragraph at hc
  have h := slp_fold_bound maxSize ov (reSplitSent false para []) ([], [])
    (by intro c hc; simp at hc) (by simp)
  simp only [List.mem_append] at hc
  rcases hc with hc | hc
  · exact h.1 c hc
  · by_cases hemp : ((reSplitSent false para []).foldl (slpStep maxSize ov) ([], [])).2 = []
    · simp [hemp] at hc
    · rw [if_neg hemp] at hc
      simp only [List.mem_singleton] at hc
      subst hc
      exact le_trans (pyStrip_length_le _) h.2

theorem chunkStep_bound (maxSize ov : Nat) (sep : List Char) (h0 : 1 ≤ ov)
    (chunks : List (List Char)) (cur para : List Char)
    (h1 : ∀ c ∈ chunks, c.length ≤ maxSize + ov) (h2 : cur.length ≤ maxSize + ov) :
    (∀ c ∈ (chunkStep maxSize ov sep (chunks, cur) para).1, c.length ≤ maxSize + ov) ∧
      (chunkStep maxSize ov sep (chunks, cur) para).2.length ≤ maxSize + ov := by
  simp only [chunkStep]
  by_cases hbig : maxSize < para.length
  · rw [if_pos hbig]
    refine ⟨?_, by simp⟩
    intro c hc
    simp only [List.mem_append] at hc
    rcases hc with (hc | hc) | hc
    · exact h1 c hc
    · by_cases hcur : cur = []
      · simp [hcur] at hc
      · rw [if_neg hcur] at hc
        simp only [List.mem_singleton] at hc
        subst hc
        exact le_trans (pyStrip_length_le cur) h2
    · exact le_trans (split_large_paragraph_bound maxSize ov para c hc) (Nat.le_add_right _ _)
  · rw [if_neg hbig]
    have hpara : para.length ≤ maxSize := Nat.le_of_not_lt hbig
    by_cases htest : (if cur = [] then para else cur ++ sep ++ para).length ≤ maxSize
    · rw [if_pos htest]
      exact ⟨h1, le_trans htest (Nat.le_add_right _ _)⟩
    · rw [if_neg htest]
      constructor
      · intro c hc
        simp only [List.mem_append] at hc
        rcases hc with hc | hc
        · exact h1 c hc
        · by_cases hcur : cur = []
          · simp [hcur] at hc
          · rw [if_neg hcur] at hc
            simp only [List.mem_singleton] at hc
            subst hc
            exact le_trans (pyStrip_length_le cur) h2
      · by_cases holp : get_overlap ov cur = []
        · simpa [holp] using le_trans hpara (Nat.le_add_right _ _)
        · rw [if_neg holp]
          have := get_overlap_length_le ov cur h0
          simp only [List.length_append]
          omega

theorem chunk_fold_bound (maxSize ov : Nat) (sep : List Char) (h0 : 1 ≤ ov)
    (paras : List (List Char)) :
    ∀ st : List (List Char) × List Char,
      (∀ c ∈ st.1, c.length ≤ maxSize + ov) → st.2.length ≤ maxSize + ov →
      (∀ c ∈ (paras.foldl (chunkStep maxSize ov sep) st).1, c.length ≤ maxSize + ov) ∧
        (paras.foldl (chunkStep maxSize ov sep) st).2.length ≤ maxSize + ov := by
  induction paras with
  | nil => intro st h1 h2; exact ⟨h1, h2⟩
  | cons para rest ih =>
    intro st h1 h2
    obtain ⟨chunks, cur⟩ := st
    rw [List.foldl_cons]
    have hs := chunkStep_bound maxSize ov sep h0 chunks cur para h1 h2
    exact ih _ hs.1 hs.2

/-- Claim C2 is false as stated (see the counterexample below): a chunk
seeded with the overlap of the previous chunk can exceed `max_size`.
This is the amended bound: for `1 ≤ overlap_size < max_size` every chunk
produced by `chunk_text` has length at most `max_size + overlap_size`
(chunks produced by direct accumulation or force-splitting stay within
`max_size`; only overlap-seeded chunks can exceed it, by at most
`overlap_size`). -/
theorem C2_chunk_length_bound (maxSize ov : Nat) (sep text : List Char)
    (h0 : 1 ≤ ov) (_h1 : ov < maxSize) :
    ∀ c ∈ chunk_text maxSize ov sep text, c.length ≤ maxSize + ov := by
  intro c hc
  unfold chunk_text at hc
  by_cases hemp : text = []
  · simp [hemp] at hc
  · rw [if_neg hemp] at hc
    by_cases hsmall : text.length ≤ maxSize
    · rw [if_pos hsmall] at hc
      simp only [List.mem_singleton] at hc
      subst hc
      exact le_trans hsmall (Nat.le_add_right _ _)
    · rw [if_neg hsmall] at hc
      have h := chunk_fold_bound maxSize ov sep h0 (split_by_separator sep text) ([], [])
        (by intro c hc; simp at hc) (by simp)
      simp only [List.mem_append] at hc
      rcases hc with hc | hc
      · exact h.1 c hc
      · by_cases hcur :
          ((split_by_separator sep text).foldl (chunkStep maxSize ov sep) ([], [])).2 = []
        · simp [hcur] at hc
        · rw [if_neg hcur] at hc
          simp only [List.mem_singleton] at hc
          subst hc
          exact le_trans (pyStrip_length_le _) h.2

/-- Witness: the amended bound instantiated at `max_size = 10`,
`overlap_size = 3` on the counterexample text, applied to its
overlap-seeded second chunk of length 11. -/
theorem C2_chunk_length_bound_witness :
    (lit "hijklmnopqr").length ≤ 13 :=
  C2_chunk_length_bound 10 3 (lit "\n\n") (lit "abcdefghij\n\nklmnopqr") (by decide) (by decide)
    (lit "hijklmnopqr") (by decide)

/-- Counterexample to claim C2 as stated: with `max_size = 10 >
overlap_size = 3 ≥ 0`, the input `"abcdefghij\n\nklmnopqr"` produces a
second chunk `"hijklmnopqr"` of length 11 > 10: the chunk seeded with
the 3-character overlap `"hij"` exceeds `max_size`. -/
theorem C2_counterexample :
    (chunk_text 10 3 (lit "\n\n") (lit "abcdefghij\n\nklmnopqr")).map List.length = [10, 11] ∧
      ¬ (11 : Nat) ≤ 10 := by
  constructor
  · decide
  · decide

/-- Claim C9: `chunk_text` returns `[]` on the empty text, and returns
the text unchanged as a single chunk whenever it already fits in
`max_size` (chunker.py lines 44-45). -/
theorem C9_small_input_identity (maxSize ov : Nat) (sep text : List Char) :
    chunk_text maxSize ov sep [] = [] ∧
      (text ≠ [] → text.length ≤ maxSize → chunk_text maxSize ov sep text = [text]) := by
  constructor
  · simp [chunk_text]
  · intro h1 h2
    unfold chunk_text
    rw [if_neg h1, if_pos h2]

/-- Witness for C9 at a concrete input. -/
theorem C9_small_input_identity_witness :
    chunk_text 8000 200 (lit "\n\n") (lit "hello world") = [lit "hello world"] :=
  (C9_small_input_identity 8000 200 (lit "\n\n") (lit "hello world")).2
    (by decide) (by decide)

/-! ## Retry policy (claim C4) -/

/-- Claim C4: on a call that fails on every attempt, the retry wrapper
makes exactly 3 attempts, waits `2 ^ attempt * 2` seconds before the two
retries that follow the failed attempts (2s then 4s), propagates the
last underlying error instead of synthesizing a result, and the backoff
schedule is the same for any failing oracle whatever its error strings
(the rate-limit classification `is_rate_limit` of summarizer.py line 350
only selects a log message). -/
theorem C4_retry_policy (orc orc2 : Nat → Except (List Char) (List Char))
    (errs errs2 : Nat → List Char)
    (h : ∀ i, orc i = Except.error (errs i))
    (h2 : ∀ i, orc2 i = Except.error (errs2 i)) :
    retryRun orc = (Except.error (errs 2), [2 ^ 0 * 2, 2 ^ 1 * 2], 3) ∧
      (retryRun orc).2.1 = (retryRun orc2).2.1 := by
  have e0 := h 0
  have e1 := h 1
  have e2 := h 2
  have f0 := h2 0
  have f1 := h2 1
  have f2 := h2 2
  constructor
  · simp [retryRun, MAX_RETRIES, retryGo, e0, e1, e2]
  · simp [retryRun, MAX_RETRIES, retryGo, e0, e1, e2, f0, f1, f2]

/-- Witness for C4: a permanently failing backend with rate-limit-shaped
errors makes 3 attempts, waits 2s and 4s, and raises the final error. -/
theorem C4_retry_policy_witness :
    retryRun (fun _ => Except.error (lit "429 Too Many Requests"))
      = (Except.error (lit "429 Too Many Requests"), [2 ^ 0 * 2, 2 ^ 1 * 2], 3) :=
  (C4_retry_policy (fun _ => Except.error (lit "429 Too Many Requests"))
    (fun _ => Except.error (lit "auth failed"))
    (fun _ => lit "429 Too Many Requests") (fun _ => lit "auth failed")
    (fun _ => rfl) (fun _ => rfl)).1

/-! ## Title parsing (claim C7) -/

theorem pySplitCharAux_ne_nil (sep : Char) :
    ∀ (s acc : List Char), pySplitCharAux sep s acc ≠ [] := by
  intro s
  induction s with
  | nil => intro acc; simp [pySplitCharAux]
  | cons c rest ih =>
    intro acc
    simp only [pySplitCharAux]
    by_cases h : c = sep
    · simp [h]
    · rw [if_neg h]
      exact ih _

theorem pySplitChar_ne_nil (sep : Char) (s : List Char) : pySplitChar sep s ≠ [] :=
  pySplitCharAux_ne_nil sep s []

/-- The first line of the stripped, `TITLE:`-removed text before the
`SUMMARY:` marker — the common core of both parsers. -/
def title_line (before : List Char) : List Char :=
  (pySplitChar '\n' (pyStrip (replaceAll (lit "TITLE:") [] before))).headD []

theorem parse_response_absent (t : List Char)
    (hc : containsSub (lit "TITLE:") t = false) :
    parse_response none t = (lit "Document Summary", t) := by
  unfold parse_response
  simp [hc]

theorem stream_parse_absent (t : List Char)
    (hc : containsSub (lit "TITLE:") t = false) :
    stream_parse t = (lit "Document Summary", t) := by
  unfold stream_parse
  simp [hc]

theorem parse_response_present (t before after : List Char)
    (hc : containsSub (lit "TITLE:") t = true)
    (hs : splitOnce (lit "SUMMARY:") t = some (before, after)) :
    parse_response none t = ((pyStrip (title_line before)).take 100, pyStrip after) := by
  unfold parse_response
  rw [if_pos hc, hs]
  cases hsp : pySplitChar '\n' (pyStrip (replaceAll (lit "TITLE:") [] before)) with
  | nil => exact absurd hsp (pySplitChar_ne_nil _ _)
  | cons l rest => simp [title_line, hsp]

theorem stream_parse_present (t before after : List Char)
    (hc : containsSub (lit "TITLE:") t = true)
    (hs : splitOnce (lit "SUMMARY:") t = some (before, after)) :
    stream_parse t = (title_line before, pyStrip after) := by
  unfold stream_parse
  rw [if_pos hc, hs]
  simp [title_line]

theorem parse_response_nosummary (t : List Char)
    (hc : containsSub (lit "TITLE:") t = true)
    (hs : splitOnce (lit "SUMMARY:") t = none) :
    parse_response none t = (lit "Document Summary", t) := by
  unfold parse_response
  rw [if_pos hc, hs]

/-- Claim C7, amended.  The marker-pair parse behaves as claimed except
that: the first line is taken after removing every `TITLE:` occurrence
from the stripped before-text; the truncation to 100 characters is
applied only by the synchronous parser `_parse_response` (with no title
hint), while the streaming parser of `generate_summary_stream` applies
no truncation; when the markers are absent, both yield the default
title `"Document Summary"` with the whole text as the body.  Scenario A
parses as claimed under both parsers. -/
theorem C7_title_parse_amended :
    (∀ t, (parse_response none t).1.length ≤ 100) ∧
      (∀ t, containsSub (lit "TITLE:") t = false →
        parse_response none t = (lit "Document Summary", t) ∧
          stream_parse t = (lit "Document Summary", t)) ∧
      (∀ t before after, containsSub (lit "TITLE:") t = true →
        splitOnce (lit "SUMMARY:") t = some (before, after) →
        parse_response none t = ((pyStrip (title_line before)).take 100, pyStrip after) ∧
          stream_parse t = (title_line before, pyStrip after)) ∧
      parse_response none (lit "TITLE: Quarterly Report\nSUMMARY:\nRevenue grew 10%.")
        = (lit "Quarterly Report", lit "Revenue grew 10%.") ∧
      stream_parse (lit "TITLE: Quarterly Report\nSUMMARY:\nRevenue grew 10%.")
        = (lit "Quarterly Report", lit "Revenue grew 10%.") := by
  refine ⟨?_, ?_, ?_, by decide, by decide⟩
  · intro t
    cases hc : containsSub (lit "TITLE:") t with
    | false =>
      rw [parse_response_absent t hc]
      show (lit "Document Summary").length ≤ 100
      decide
    | true =>
      cases hs : splitOnce (lit "SUMMARY:") t with
      | none =>
        rw [parse_response_nosummary t hc hs]
        show (lit "Document Summary").length ≤ 100
        decide
      | some p =>
        rw [parse_response_present t p.1 p.2 hc (by rw [hs])]
        simp
  · intro t hc
    exact ⟨parse_response_absent t hc, stream_parse_absent t hc⟩
  · intro t before after hc hs
    exact ⟨parse_response_present t before after hc hs,
      stream_parse_present t before after hc hs⟩

/-- Witness for C7 (amended): the marker-present branch instantiated on
Scenario A, with both hypotheses discharged concretely. -/
theorem C7_title_parse_amended_witness :
    parse_response none (lit "TITLE: Q\nSUMMARY: body")
      = ((pyStrip (title_line (lit "TITLE: Q\n"))).take 100, pyStrip (lit " body")) :=
  (C7_title_parse_amended.2.2.1 (lit "TITLE: Q\nSUMMARY: body") (lit "TITLE: Q\n")
    (lit " body") (by decide) (by decide)).1

/-- A terminal text whose title line is 101 characters long. -/
def t101 : List Char := lit "TITLE: " ++ List.replicate 101 'a' ++ lit "\nSUMMARY:\nBody."

set_option maxRecDepth 40000 in
/-- Counterexample to claim C7 as stated: the streaming parser
(summarizer.py lines 240-246) applies no 100-character truncation — on
`t101` it returns the full 101-character title, while the claim says
every parsed title is truncated to 100 characters.  (The synchronous
`_parse_response` does truncate, to exactly 100 here.) -/
theorem C7_counterexample :
    (stream_parse t101).1.length = 101 ∧
      ¬ (stream_parse t101).1.length ≤ 100 ∧
      (parse_response none t101).1.length = 100 := by
  refine ⟨by decide, by decide, by decide⟩

/-! ## Bullet merge (claim C8) -/

theorem dedupGo_mem : ∀ (bs seen : List (List Char)) (b : List Char),
    b ∈ dedupGo bs seen →
    10 < (normalize_bullet b).length ∧ normalize_bullet b ∉ seen := by
  intro bs
  induction bs with
  | nil => intro seen b hb; simp [dedupGo] at hb
  | cons a rest ih =>
    intro seen b hb
    simp only [dedupGo] at hb
    by_cases hc : normalize_bullet a ∉ seen ∧ 10 < (normalize_bullet a).length
    · rw [if_pos hc] at hb
      rcases List.mem_cons.mp hb with rfl | hb
      · exact ⟨hc.2, hc.1⟩
      · have h := ih _ b hb
        exact ⟨h.1, fun hmem => h.2 (List.mem_cons_of_mem _ hmem)⟩
    · rw [if_neg hc] at hb
      exact ih _ b hb

theorem dedupGo_pairwise : ∀ (bs seen : List (List Char)),
    (dedupGo bs seen).Pairwise (fun a b => normalize_bullet a ≠ normalize_bullet b) := by
  intro bs
  induction bs with
  | nil => intro seen; simp [dedupGo]
  | cons a rest ih =>
    intro seen
    simp only [dedupGo]
    by_cases hc : normalize_bullet a ∉ seen ∧ 10 < (normalize_bullet a).length
    · rw [if_pos hc]
      refine List.Pairwise.cons ?_ (ih _)
      intro b hb heq
      exact (dedupGo_mem rest _ b hb).2 (heq ▸ List.mem_cons_self _ _)
    · rw [if_neg hc]
      exact ih _

theorem dedupGo_sublist : ∀ (bs seen : List (List Char)),
    List.Sublist (dedupGo bs seen) bs := by
  intro bs
  induction bs with
  | nil => intro seen; simp [dedupGo]
  | cons a rest ih =>
    intro seen
    simp only [dedupGo]
    by_cases hc : normalize_bullet a ∉ seen ∧ 10 < (normalize_bullet a).length
    · rw [if_pos hc]
      exact List.Sublist.cons₂ a (ih _)
    · rw [if_neg hc]
      exact List.Sublist.cons a (ih _)

/-- The bullets that survive the merge: dedup over the concatenated
extraction, capped at 20. -/
def mergedBullets (summaries : List (List Char)) : List (List Char) :=
  (deduplicate_bullets ((summaries.map extract_bullets).flatten)).take 20

/-- Claim C8, amended to lists of at least two summaries (for zero or one
summary `merge_summaries` returns early without deduplication, see the
counterexample): the `bullet_points` merge emits the surviving bullets
with a `• ` prefix joined by newlines; at most 20 bullets; each
surviving bullet normalizes to more than 10 characters; no two surviving
bullets share a normalized form; and the surviving bullets are a
sublist (first-seen order preserved) of the extracted bullets in input
order. -/
theorem C8_bullet_merge_amended (s1 s2 : List Char) (rest : List (List Char)) :
    merge_summaries (s1 :: s2 :: rest) (lit "bullet_points")
        = joinSep (lit "\n") ((mergedBullets (s1 :: s2 :: rest)).map (fun b => lit "• " ++ b)) ∧
      (mergedBullets (s1 :: s2 :: rest)).length ≤ 20 ∧
      (∀ b ∈ mergedBullets (s1 :: s2 :: rest), 10 < (normalize_bullet b).length) ∧
      (mergedBullets (s1 :: s2 :: rest)).Pairwise
        (fun a b => normalize_bullet a ≠ normalize_bullet b) ∧
      List.Sublist (mergedBullets (s1 :: s2 :: rest))
        (((s1 :: s2 :: rest).map extract_bullets).flatten) := by
  refine ⟨?_, ?_, ?_, ?_, ?_⟩
  · simp [merge_summaries, mergedBullets, deduplicate_bullets]
  · exact List.length_take_le _ _
  · intro b hb
    have hmem : b ∈ deduplicate_bullets (((s1 :: s2 :: rest).map extract_bullets).flatten) :=
      (List.take_sublist _ _).subset hb
    exact (dedupGo_mem _ [] b hmem).1
  · exact List.Pairwise.sublist (List.take_sublist _ _) (dedupGo_pairwise _ [])
  · exact List.Sublist.trans (List.take_sublist _ _) (dedupGo_sublist _ [])

/-- A single summary containing the same long bullet twice. -/
def dupBullets : List Char := lit "• aaaaaaaaaaaaaaa\n• aaaaaaaaaaaaaaa"

/-- Counterexample to claim C8 as stated ("for every list of
summaries"): with the singleton list `[dupBullets]` the merge returns
the summary unchanged (chunker.py line 163), so the output contains two
bullets with equal normalized forms of length 15 > 10 — no
deduplication, and no `• `-re-emission pass, happens for a single
summary. -/
theorem C8_counterexample :
    merge_summaries [dupBullets] (lit "bullet_points") = dupBullets ∧
      extract_bullets dupBullets = [lit "aaaaaaaaaaaaaaa", lit "aaaaaaaaaaaaaaa"] ∧
      normalize_bullet (lit "aaaaaaaaaaaaaaa") = lit "aaaaaaaaaaaaaaa" ∧
      10 < (lit "aaaaaaaaaaaaaaa").length := by
  refine ⟨rfl, by decide, by decide, by decide⟩

/-! ## Pipeline branch equations and invariants (claims C1, C3, C5, C6, C10) -/

theorem processText_deep (env : GenEnv) (text : List Char) (depth : Nat) (toks : Nat × Nat)
    (hd : MAX_RECURSIVE_DEPTH < depth) :
    processText env text depth toks =
      match env.singleResp text with
      | Except.ok r =>
        ⟨[msgDeep depth], Except.ok r, bumpTokens toks (env.pLenSingle text) r.length, [depth]⟩
      | Except.error e => ⟨[msgDeep depth], Except.error e, toks, [depth]⟩ := by
  unfold processText
  rw [if_pos hd]

theorem processText_small (env : GenEnv) (text : List Char) (depth : Nat) (toks : Nat × Nat)
    (hd : ¬ MAX_RECURSIVE_DEPTH < depth) (hs : text.length ≤ MAX_SINGLE_CHUNK_SIZE) :
    processText env text depth toks =
      match env.singleResp text with
      | Except.ok r =>
        ⟨[msgSingle], Except.ok r, bumpTokens toks (env.pLenSingle text) r.length, [depth]⟩
      | Except.error e => ⟨[msgSingle], Except.error e, toks, [depth]⟩ := by
  unfold processText
  rw [if_neg hd, if_pos hs]

theorem processText_gatherFail (env : GenEnv) (text : List Char) (depth : Nat) (toks : Nat × Nat)
    (e : List Char)
    (hd : ¬ MAX_RECURSIVE_DEPTH < depth) (hs : ¬ text.length ≤ MAX_SINGLE_CHUNK_SIZE)
    (hg : gatherChunks env (chunk_text 12000 500 (lit "\n\n") text) = Except.error e) :
    processText env text depth toks =
      ⟨preLogs depth (chunk_text 12000 500 (lit "\n\n") text).length
          ++ [Ev.err (lit "Parallel processing failed: " ++ e)],
        Except.error e, batchTokens env (chunk_text 12000 500 (lit "\n\n") text) toks,
        [depth]⟩ := by
  unfold processText
  rw [if_neg hd, if_neg hs]
  simp only [hg]

theorem processText_recurse (env : GenEnv) (text : List Char) (depth : Nat) (toks : Nat × Nat)
    (sums : List (List Char))
    (hd : ¬ MAX_RECURSIVE_DEPTH < depth) (hs : ¬ text.length ≤ MAX_SINGLE_CHUNK_SIZE)
    (hg : gatherChunks env (chunk_text 12000 500 (lit "\n\n") text) = Except.ok sums)
    (hm : MAX_SINGLE_CHUNK_SIZE < (joinSep (lit "\n\n") sums).length) :
    processText env text depth toks =
      ⟨pre2Logs depth (chunk_text 12000 500 (lit "\n\n") text).length
          ++ [msgRecurse (joinSep (lit "\n\n") sums).length (depth + 1)]
          ++ (processText env (joinSep (lit "\n\n") sums) (depth + 1)
              (batchTokens env (chunk_text 12000 500 (lit "\n\n") text) toks)).evs,
        (processText env (joinSep (lit "\n\n") sums) (depth + 1)
          (batchTokens env (chunk_text 12000 500 (lit "\n\n") text) toks)).res,
        (processText env (joinSep (lit "\n\n") sums) (depth + 1)
          (batchTokens env (chunk_text 12000 500 (lit "\n\n") text) toks)).toks,
        depth :: (processText env (joinSep (lit "\n\n") sums) (depth + 1)
          (batchTokens env (chunk_text 12000 500 (lit "\n\n") text) toks)).depths⟩ := by
  conv_lhs => unfold processText
  rw [if_neg hd, if_neg hs]
  simp only [hg]
  rw [if_pos hm]

theorem processText_finalize (env : GenEnv) (text : List Char) (depth : Nat) (toks : Nat × Nat)
    (sums : List (List Char))
    (hd : ¬ MAX_RECURSIVE_DEPTH < depth) (hs : ¬ text.length ≤ MAX_SINGLE_CHUNK_SIZE)
    (hg : gatherChunks env (chunk_text 12000 500 (lit "\n\n") text) = Except.ok sums)
    (hm : ¬ MAX_SINGLE_CHUNK_SIZE < (joinSep (lit "\n\n") sums).length) :
    processText env text depth toks =
      match env.mergeResp sums with
      | Except.ok r =>
        ⟨pre2Logs depth (chunk_text 12000 500 (lit "\n\n") text).length ++ [msgFinalizing],
          Except.ok r,
          bumpTokens (batchTokens env (chunk_text 12000 500 (lit "\n\n") text) toks)
            (env.pLenMerge sums) r.length, [depth]⟩
      | Except.error e =>
        ⟨pre2Logs depth (chunk_text 12000 500 (lit "\n\n") text).length ++ [msgFinalizing],
          Except.error e,
          batchTokens env (chunk_text 12000 500 (lit "\n\n") text) toks, [depth]⟩ := by
  conv_lhs => unfold processText
  rw [if_neg hd, if_neg hs]
  simp only [hg]
  rw [if_neg hm]

theorem bumpTokens_fst_le (t : Nat × Nat) (p c : Nat) : t.1 ≤ (bumpTokens t p c).1 :=
  Nat.le_add_right _ _

theorem bumpTokens_snd_le (t : Nat × Nat) (p c : Nat) : t.2 ≤ (bumpTokens t p c).2 :=
  Nat.le_add_right _ _

theorem batchStep_le (env : GenEnv) (t : Nat × Nat) (p : Nat × List Char) :
    t.1 ≤ (batchStep env t p).1 ∧ t.2 ≤ (batchStep env t p).2 := by
  unfold batchStep
  cases chunkResult env p.1 p.2 with
  | ok r => exact ⟨bumpTokens_fst_le _ _ _, bumpTokens_snd_le _ _ _⟩
  | error e => exact ⟨le_rfl, le_rfl⟩

theorem foldl_batchStep_le (env : GenEnv) :
    ∀ (l : List (Nat × List Char)) (t : Nat × Nat),
      t.1 ≤ (l.foldl (batchStep env) t).1 ∧ t.2 ≤ (l.foldl (batchStep env) t).2 := by
  intro l
  induction l with
  | nil => intro t; exact ⟨le_rfl, le_rfl⟩
  | cons p rest ih =>
    intro t
    rw [List.foldl_cons]
    have h1 := batchStep_le env t p
    have h2 := ih (batchStep env t p)
    exact ⟨le_trans h1.1 h2.1, le_trans h1.2 h2.2⟩

theorem batchTokens_le (env : GenEnv) (chunks : List (List Char)) (toks : Nat × Nat) :
    toks.1 ≤ (batchTokens env chunks toks).1 ∧ toks.2 ≤ (batchTokens env chunks toks).2 :=
  foldl_batchStep_le env chunks.enum toks

theorem countP_queuedLogs (p : Ev → Bool) (hp : ∀ s, p (Ev.log s) = false) (n : Nat) :
    (queuedLogs n).countP p = 0 := by
  rw [List.countP_eq_zero]
  intro a ha
  simp only [queuedLogs, List.mem_map] at ha
  obtain ⟨i, _, rfl⟩ := ha
  simp [hp]

theorem countP_preLogs (p : Ev → Bool) (hp : ∀ s, p (Ev.log s) = false) (depth n : Nat) :
    (preLogs depth n).countP p = 0 := by
  simp [preLogs, List.countP_append, countP_queuedLogs p hp, List.countP_cons, hp]

theorem countP_pre2Logs (p : Ev → Bool) (hp : ∀ s, p (Ev.log s) = false) (depth n : Nat) :
    (pre2Logs depth n).countP p = 0 := by
  simp [pre2Logs, List.countP_append, countP_preLogs p hp, List.countP_cons, hp]

theorem isResultEv_log (s : List Char) : isResultEv (Ev.log s) = false := rfl
theorem isErrEv_log (s : List Char) : isErrEv (Ev.log s) = false := rfl

/-- The combined structural invariant of `process_text`, proved by
induction on the remaining depth budget: the visited depths are the
consecutive range starting at the entry depth; at least one and at most
`max 1 (MAX_RECURSIVE_DEPTH + 2 - depth)` invocations happen; token
totals never decrease; the yielded events contain no `result` event and
at most one `error` event; and a successful outcome yields no `error`
event at all. -/
theorem processText_props :
    ∀ (k depth : Nat) (env : GenEnv) (text : List Char) (toks : Nat × Nat),
      MAX_RECURSIVE_DEPTH + 2 - depth ≤ k →
      (processText env text depth toks).depths
          = List.range' depth (processText env text depth toks).depths.length ∧
        1 ≤ (processText env text depth toks).depths.length ∧
        (processText env text depth toks).depths.length
          ≤ max 1 (MAX_RECURSIVE_DEPTH + 2 - depth) ∧
        toks.1 ≤ (processText env text depth toks).toks.1 ∧
        toks.2 ≤ (processText env text depth toks).toks.2 ∧
        (processText env text depth toks).evs.countP isResultEv = 0 ∧
        (processText env text depth toks).evs.countP isErrEv ≤ 1 ∧
        (∀ r, (processText env text depth toks).res = Except.ok r →
          (processText env text depth toks).evs.countP isErrEv = 0) := by
  intro k
  induction k with
  | zero =>
    intro depth env text toks hk
    have hd : MAX_RECURSIVE_DEPTH < depth := by
      simp only [MAX_RECURSIVE_DEPTH] at hk ⊢
      omega
    rw [processText_deep env text depth toks hd]
    cases env.singleResp text with
    | ok r =>
      refine ⟨by simp [List.range'], by simp, by simp, bumpTokens_fst_le _ _ _,
        bumpTokens_snd_le _ _ _, by simp [isResultEv_log, msgDeep],
        by simp [isErrEv_log, msgDeep], ?_⟩
      intro r2 _
      simp [isErrEv_log, msgDeep]
    | error e =>
      refine ⟨by simp [List.range'], by simp, by simp, le_rfl, le_rfl,
        by simp [isResultEv_log, msgDeep], by simp [isErrEv_log, msgDeep], ?_⟩
      intro r2 hr2
      simp at hr2
  | succ k ih =>
    intro depth env text toks hk
    by_cases hd : MAX_RECURSIVE_DEPTH < depth
    · rw [processText_deep env text depth toks hd]
      cases env.singleResp text with
      | ok r =>
        refine ⟨by simp [List.range'], by simp, by simp, bumpTokens_fst_le _ _ _,
          bumpTokens_snd_le _ _ _, by simp [isResultEv_log, msgDeep],
          by simp [isErrEv_log, msgDeep], ?_⟩
        intro r2 _
        simp [isErrEv_log, msgDeep]
      | error e =>
        refine ⟨by simp [List.range'], by simp, by simp, le_rfl, le_rfl,
          by simp [isResultEv_log, msgDeep], by simp [isErrEv_log, msgDeep], ?_⟩
        intro r2 hr2
        simp at hr2
    · by_cases hs : text.length ≤ MAX_SINGLE_CHUNK_SIZE
      · rw [processText_small env text depth toks hd hs]
        cases env.singleResp text with
        | ok r =>
          refine ⟨by simp [List.range'], by simp, by simp, bumpTokens_fst_le _ _ _,
            bumpTokens_snd_le _ _ _, by simp [isResultEv_log, msgSingle],
            by simp [isErrEv_log, msgSingle], ?_⟩
          intro r2 _
          simp [isErrEv_log, msgSingle]
        | error e =>
          refine ⟨by simp [List.range'], by simp, by simp, le_rfl, le_rfl,
            by simp [isResultEv_log, msgSingle], by simp [isErrEv_log, msgSingle], ?_⟩
          intro r2 hr2
          simp at hr2
      · cases hg : gatherChunks env (chunk_text 12000 500 (lit "\n\n") text) with
        | error e =>
          rw [processText_gatherFail env text depth toks e hd hs hg]
          refine ⟨by simp [List.range'], by simp, by simp,
            (batchTokens_le env _ toks).1, (batchTokens_le env _ toks).2, ?_, ?_, ?_⟩
          · simp [List.countP_append, countP_preLogs isResultEv isResultEv_log,
              List.countP_cons, isResultEv]
          · simp [List.countP_append, countP_preLogs isErrEv isErrEv_log,
              List.countP_cons, isErrEv]
          · intro r2 hr2
            simp at hr2
        | ok sums =>
          by_cases hm : MAX_SINGLE_CHUNK_SIZE < (joinSep (lit "\n\n") sums).length
          · rw [processText_recurse env text depth toks sums hd hs hg hm]
            have hk2 : MAX_RECURSIVE_DEPTH + 2 - (depth + 1) ≤ k := by
              simp only [MAX_RECURSIVE_DEPTH] at hk hd ⊢
              omega
            obtain ⟨ih1, ih2, ih3, ih4, ih5, ih6, ih7, ih8⟩ :=
              ih (depth + 1) env (joinSep (lit "\n\n") sums)
                (batchTokens env (chunk_text 12000 500 (lit "\n\n") text) toks) hk2
            have hbt := batchTokens_le env (chunk_text 12000 500 (lit "\n\n") text) toks
            refine ⟨?_, by simp, ?_, le_trans hbt.1 ih4, le_trans hbt.2 ih5, ?_, ?_, ?_⟩
            · simp only [List.length_cons]
              rw [List.range'_succ, ← ih1]
            · simp only [List.length_cons]
              simp only [MAX_RECURSIVE_DEPTH] at ih3 hd ⊢
              omega
            · simp only [List.countP_append]
              rw [countP_pre2Logs isResultEv isResultEv_log, ih6]
              simp [msgRecurse, List.countP_cons, isResultEv]
            · simp only [List.countP_append]
              rw [countP_pre2Logs isErrEv isErrEv_log]
              simpa [msgRecurse, List.countP_cons, isErrEv] using ih7
            · intro r2 hr2
              simp only [List.countP_append]
              rw [countP_pre2Logs isErrEv isErrEv_log, ih8 r2 hr2]
              simp [msgRecurse, List.countP_cons, isErrEv]
          · rw [processText_finalize env text depth toks sums hd hs hg hm]
            have hbt := batchTokens_le env (chunk_text 12000 500 (lit "\n\n") text) toks
            cases env.mergeResp sums with
            | ok r =>
              refine ⟨by simp [List.range'], by simp, by simp,
                le_trans hbt.1 (bumpTokens_fst_le _ _ _),
                le_trans hbt.2 (bumpTokens_snd_le _ _ _), ?_, ?_, ?_⟩
              · simp [List.countP_append, countP_pre2Logs isResultEv isResultEv_log,
                  List.countP_cons, isResultEv, msgFinalizing]
              · simp [List.countP_append, countP_pre2Logs isErrEv isErrEv_log,
                  List.countP_cons, isErrEv, msgFinalizing]
              · intro r2 _
                simp [List.countP_append, countP_pre2Logs isErrEv isErrEv_log,
                  List.countP_cons, isErrEv, msgFinalizing]
            | error e =>
              refine ⟨by simp [List.range'], by simp, by simp, hbt.1, hbt.2, ?_, ?_, ?_⟩
              · simp [List.countP_append, countP_pre2Logs isResultEv isResultEv_log,
                  List.countP_cons, isResultEv, msgFinalizing]
              · simp [List.countP_append, countP_pre2Logs isErrEv isErrEv_log,
                  List.countP_cons, isErrEv, msgFinalizing]
              · intro r2 hr2
                simp at hr2

/-- Claim C3: starting from depth 1 (the initial `process_text(text)`
call), the visited depths are the consecutive range `1, 2, ...` (depth
increases by exactly 1 on each recursion), at least one and at most
`MAX_RECURSIVE_DEPTH + 1 = 4` summarization rounds happen — for every
environment, including those whose merged text never shrinks — and once
the depth exceeds `MAX_RECURSIVE_DEPTH` the branch taken is the direct
single-call one, so the pipeline always terminates. -/
theorem C3_recursion_bound (env : GenEnv) (text : List Char) (toks : Nat × Nat) :
    (processText env text 1 toks).depths
        = List.range' 1 (processText env text 1 toks).depths.length ∧
      1 ≤ (processText env text 1 toks).depths.length ∧
      (processText env text 1 toks).depths.length ≤ MAX_RECURSIVE_DEPTH + 1 := by
  obtain ⟨h1, h2, h3, -, -, -, -, -⟩ :=
    processText_props (MAX_RECURSIVE_DEPTH + 1) 1 env text toks
      (by simp [MAX_RECURSIVE_DEPTH])
  refine ⟨h1, h2, ?_⟩
  simp only [MAX_RECURSIVE_DEPTH] at h3 ⊢
  omega

/-- Claim C10, amended: each backend call adds `int(len(text)/4)` —
floor division, not Python `round` — to the running totals, and the
accumulated totals never decrease anywhere in the pipeline. -/
theorem C10_token_accounting_amended :
    (∀ (t : Nat × Nat) (p c : Nat), bumpTokens t p c = (t.1 + p / 4, t.2 + c / 4)) ∧
      (∀ (env : GenEnv) (text : List Char) (depth : Nat) (toks : Nat × Nat),
        toks.1 ≤ (processText env text depth toks).toks.1 ∧
          toks.2 ≤ (processText env text depth toks).toks.2) := by
  refine ⟨fun t p c => rfl, fun env text depth toks => ?_⟩
  obtain ⟨-, -, -, h4, h5, -, -, -⟩ :=
    processText_props (MAX_RECURSIVE_DEPTH + 2) depth env text toks (Nat.sub_le _ _)
  exact ⟨h4, h5⟩

/-- Counterexample to claim C10 as stated: the source adds
`int(len/4)` (floor), not `round(len/4)`.  On a 6-character prompt the
code adds 1 token while `round(6/4) = round(1.5) = 2` (Python banker's
rounding on the exact dyadic value). -/
theorem C10_counterexample :
    bumpTokens (0, 0) 6 8 = (1, 2) ∧ pyRound4 6 = 2 ∧ ¬ (1 : Nat) = 2 :=
  ⟨rfl, rfl, by decide⟩

/-! ## Terminal events of the stream (claims C5 and C1) -/

theorem isResultEv_result (a b : List Char) (c d : Nat) :
    isResultEv (Ev.result a b c d) = true := rfl
theorem isErrEv_result (a b : List Char) (c d : Nat) :
    isErrEv (Ev.result a b c d) = false := rfl
theorem isResultEv_err (s : List Char) : isResultEv (Ev.err s) = false := rfl
theorem isErrEv_err (s : List Char) : isErrEv (Ev.err s) = true := rfl

theorem gss_noModel (env : GenEnv) (text : List Char) (h : env.hasModel = false) :
    generate_summary_stream env text = [Ev.err (lit "Gemini API key not configured")] := by
  unfold generate_summary_stream
  rw [h]
  simp

theorem gss_ok (env : GenEnv) (text r : List Char) (h : env.hasModel = true)
    (hr : (processText env text 1 (0, 0)).res = Except.ok r) :
    generate_summary_stream env text =
      Ev.log (lit "Analyzing document connection (" ++ natStr text.length ++ lit " chars)...") ::
        ((processText env text 1 (0, 0)).evs
          ++ [Ev.result (stream_parse r).1 (stream_parse r).2
                (processText env text 1 (0, 0)).toks.1 (processText env text 1 (0, 0)).toks.2]) := by
  unfold generate_summary_stream
  rw [h]
  simp only [hr, Bool.not_true, Bool.false_eq_true, if_false]

theorem gss_err (env : GenEnv) (text e : List Char) (h : env.hasModel = true)
    (hr : (processText env text 1 (0, 0)).res = Except.error e) :
    generate_summary_stream env text =
      Ev.log (lit "Analyzing document connection (" ++ natStr text.length ++ lit " chars)...") ::
        ((processText env text 1 (0, 0)).evs ++ [Ev.err e]) := by
  unfold generate_summary_stream
  rw [h]
  simp only [hr, Bool.not_true, Bool.false_eq_true, if_false]

theorem gssRun_noModel (env : GenEnv) (text : List Char) (h : env.hasModel = false) :
    generate_summary_stream_run env text = [Ev.err (lit "Gemini API key not configured")] := by
  unfold generate_summary_stream_run
  rw [h]
  simp

theorem gssRun_ok (env : GenEnv) (text r : List Char) (h : env.hasModel = true)
    (hr : (processTextRun env text 1 (0, 0)).res = Except.ok r) :
    generate_summary_stream_run env text =
      Ev.log (lit "Analyzing document connection (" ++ natStr text.length ++ lit " chars)...") ::
        ((processTextRun env text 1 (0, 0)).evs
          ++ [Ev.result (stream_parse r).1 (stream_parse r).2
                (processTextRun env text 1 (0, 0)).toks.1
                (processTextRun env text 1 (0, 0)).toks.2]) := by
  unfold generate_summary_stream_run
  rw [h]
  simp only [hr, Bool.not_true, Bool.false_eq_true, if_false]

theorem gssRun_err (env : GenEnv) (text e : List Char) (h : env.hasModel = true)
    (hr : (processTextRun env text 1 (0, 0)).res = Except.error e) :
    generate_summary_stream_run env text =
      Ev.log (lit "Analyzing document connection (" ++ natStr text.length ++ lit " chars)...") ::
        ((processTextRun env text 1 (0, 0)).evs ++ [Ev.err e]) := by
  unfold generate_summary_stream_run
  rw [h]
  simp only [hr, Bool.not_true, Bool.false_eq_true, if_false]

/-- Every branch of the runtime-accurate `process_text` yields only
`log` events (the inner error yield of lines 213-214 sits beyond the
raising `await` of line 194 and is unreachable). -/
theorem processTextRun_evs (env : GenEnv) (text : List Char) (depth : Nat) (toks : Nat × Nat) :
    (processTextRun env text depth toks).evs.countP isResultEv = 0 ∧
      (processTextRun env text depth toks).evs.countP isErrEv = 0 := by
  unfold processTextRun
  by_cases hd : MAX_RECURSIVE_DEPTH < depth
  · rw [if_pos hd]
    cases env.singleResp text <;>
      simp [isResultEv_log, isErrEv_log, msgDeep]
  · rw [if_neg hd]
    by_cases hs : text.length ≤ MAX_SINGLE_CHUNK_SIZE
    · rw [if_pos hs]
      cases env.singleResp text <;>
        simp [isResultEv_log, isErrEv_log, msgSingle]
    · rw [if_neg hs]
      simp [isResultEv_log, isErrEv_log]

/-- Claim C5: over the runtime-accurate pipeline, every run's event
sequence contains exactly one terminal event — exactly one `result`
event (success) or exactly one `error` event (any failure: missing API
key, a failing single call, or the `TypeError` raised by the `await` of
line 194 on the chunking path), never both and never more than one
`error` event; `log` events are advisory only.  (In the dataflow model
`processText` used by the batch-level claims, a failing gather would
additionally emit the inner "Parallel processing failed" error event,
but that code path is unreachable in the program as written.) -/
theorem C5_terminal_events (env : GenEnv) (text : List Char) :
    (generate_summary_stream_run env text).countP isResultEv
        + (generate_summary_stream_run env text).countP isErrEv = 1 := by
  obtain ⟨h1, h2⟩ := processTextRun_evs env text 1 (0, 0)
  cases hmod : env.hasModel with
  | false =>
    rw [gssRun_noModel env text hmod]
    simp only [List.countP_cons, List.countP_nil, isResultEv_err, isErrEv_err,
      Bool.false_eq_true, if_true, if_false]
  | true =>
    cases hres : (processTextRun env text 1 (0, 0)).res with
    | ok r =>
      rw [gssRun_ok env text r hmod hres]
      simp only [List.countP_cons, List.countP_append, List.countP_nil, h1, h2,
        isResultEv_log, isErrEv_log, isResultEv_result, isErrEv_result,
        Bool.false_eq_true, if_true, if_false]
    | error e =>
      rw [gssRun_err env text e hmod hres]
      simp only [List.countP_cons, List.countP_append, List.countP_nil, h1, h2,
        isResultEv_log, isErrEv_log, isResultEv_err, isErrEv_err,
        Bool.false_eq_true, if_true, if_false]

/-! ## Concrete large-input runs

The closed-form witnesses and counterexamples for the pipeline claims
need a text longer than `MAX_SINGLE_CHUNK_SIZE` (2,000,001 characters of
`'a'`), far too large to evaluate by kernel reduction; the following
lemmas compute `chunk_text` on it symbolically. -/

def bigText : List Char := List.replicate (MAX_SINGLE_CHUNK_SIZE + 1) 'a'

theorem nlnl_not_leading (l : List Char) : (lit "\n\n").isPrefixOf ('a' :: l) = false := by
  simp [lit, List.isPrefixOf]

theorem pySplitAux_replicate (n : Nat) :
    ∀ acc, pySplitAux (lit "\n\n") (List.replicate n 'a') acc 0
      = [acc.reverse ++ List.replicate n 'a'] := by
  induction n with
  | zero => intro acc; simp [pySplitAux]
  | succ n ih =>
    intro acc
    rw [List.replicate_succ 'a' n]
    simp only [pySplitAux]
    rw [if_neg (by simp [nlnl_not_leading])]
    rw [ih ('a' :: acc)]
    simp [List.reverse_cons, List.append_assoc]

theorem pyWs_a : pyWs 'a' = false := by decide

theorem dropWhile_pyWs_replicate (n : Nat) :
    (List.replicate n 'a').dropWhile pyWs = List.replicate n 'a' := by
  cases n with
  | zero => simp
  | succ n => rw [List.replicate_succ 'a' n, List.dropWhile_cons_of_neg (by simp [pyWs_a])]

theorem pyStrip_replicate (n : Nat) :
    pyStrip (List.replicate n 'a') = List.replicate n 'a' := by
  unfold pyStrip
  rw [dropWhile_pyWs_replicate, List.reverse_replicate, dropWhile_pyWs_replicate,
    List.reverse_replicate]

theorem split_by_sep_replicate (n : Nat) (h : 1 ≤ n) :
    split_by_separator (lit "\n\n") (List.replicate n 'a') = [List.replicate n 'a'] := by
  unfold split_by_separator pySplit
  rw [pySplitAux_replicate n []]
  have hd : pyStrip (List.replicate n 'a') ≠ [] := by
    rw [pyStrip_replicate]
    intro hnil
    have := congrArg List.length hnil
    simp at this
    omega
  simp [List.filter, hd]

theorem reSplitSent_replicate :
    ∀ (n : Nat) (acc : List Char),
      reSplitSent false (List.replicate n 'a') acc = [acc.reverse ++ List.replicate n 'a'] := by
  intro n
  induction n using Nat.strong_induction_on with
  | _ n ih =>
    match n with
    | 0 => intro acc; simp [reSplitSent]
    | 1 =>
      intro acc
      rw [List.replicate_succ 'a' 0, List.replicate_zero]
      simp [reSplitSent, List.reverse_cons]
    | Nat.succ (Nat.succ n) =>
      intro acc
      rw [List.replicate_succ 'a' (n + 1), List.replicate_succ 'a' n]
      simp only [reSplitSent]
      rw [if_neg (by simp), if_neg (by simp [sentEnd, pyWs])]
      have h := ih (n + 1) (by omega) ('a' :: acc)
      rw [List.replicate_succ 'a' n] at h
      rw [h]
      simp [List.reverse_cons, List.append_assoc]

theorem bigText_length : bigText.length = MAX_SINGLE_CHUNK_SIZE + 1 := by
  simp [bigText]

theorem bigText_ne_nil : bigText ≠ [] := by
  intro h
  have := congrArg List.length h
  rw [bigText_length] at this
  simp at this

theorem forceWindowsF_cons (m st fuel : Nat) (c : Char) (rest : List Char) :
    forceWindowsF m st (fuel + 1) (c :: rest)
      = ((c :: rest).take m) :: forceWindowsF m st fuel ((c :: rest).drop st) := rfl

theorem forceWindowsF_nil (m st fuel : Nat) : forceWindowsF m st fuel [] = [] := by
  cases fuel <;> rfl

theorem reSplitSent_bigText : reSplitSent false bigText [] = [bigText] := by
  show reSplitSent false (List.replicate (MAX_SINGLE_CHUNK_SIZE + 1) 'a') []
      = [List.replicate (MAX_SINGLE_CHUNK_SIZE + 1) 'a']
  rw [reSplitSent_replicate (MAX_SINGLE_CHUNK_SIZE + 1) []]
  rw [List.reverse_nil, List.nil_append]

theorem split_by_sep_bigText : split_by_separator (lit "\n\n") bigText = [bigText] := by
  show split_by_separator (lit "\n\n") (List.replicate (MAX_SINGLE_CHUNK_SIZE + 1) 'a')
      = [List.replicate (MAX_SINGLE_CHUNK_SIZE + 1) 'a']
  exact split_by_sep_replicate (MAX_SINGLE_CHUNK_SIZE + 1) (by omega)

theorem bigText_length_large : 12000 < bigText.length := by
  rw [bigText_length]
  unfold MAX_SINGLE_CHUNK_SIZE
  omega

theorem slpStep_big_case (maxSize ov : Nat) (chunks : List (List Char)) (sentence : List Char)
    (h : maxSize < sentence.length) :
    slpStep maxSize ov (chunks, []) sentence
      = (chunks ++ forceWindows maxSize (maxSize - ov) sentence, []) := by
  simp only [slpStep]
  rw [if_pos h]
  simp

theorem chunkStep_big_case (maxSize ov : Nat) (sep : List Char) (chunks : List (List Char))
    (para : List Char) (h : maxSize < para.length) :
    chunkStep maxSize ov sep (chunks, []) para
      = (chunks ++ split_large_paragraph maxSize ov para, []) := by
  simp only [chunkStep]
  rw [if_pos h]
  simp

theorem split_large_via_fold (maxSize ov : Nat) (para : List Char) (A : List (List Char))
    (h : (reSplitSent false para []).foldl (slpStep maxSize ov) ([], []) = (A, [])) :
    split_large_paragraph maxSize ov para = A := by
  unfold split_large_paragraph
  rw [h]
  simp

theorem chunk_text_via_fold (maxSize ov : Nat) (sep text : List Char) (A : List (List Char))
    (hne : text ≠ []) (hbig : ¬ text.length ≤ maxSize)
    (h : (split_by_separator sep text).foldl (chunkStep maxSize ov sep) ([], []) = (A, [])) :
    chunk_text maxSize ov sep text = A := by
  unfold chunk_text
  rw [if_neg hne, if_neg hbig, h]
  simp

theorem split_large_paragraph_bigText :
    split_large_paragraph 12000 500 bigText = forceWindows 12000 11500 bigText := by
  refine split_large_via_fold 12000 500 bigText _ ?_
  rw [reSplitSent_bigText, List.foldl_cons, List.foldl_nil,
    slpStep_big_case 12000 500 [] bigText bigText_length_large]
  rw [List.nil_append, show 12000 - 500 = 11500 from rfl]

theorem chunk_text_bigText :
    chunk_text 12000 500 (lit "\n\n") bigText = forceWindows 12000 11500 bigText := by
  refine chunk_text_via_fold 12000 500 (lit "\n\n") bigText _ bigText_ne_nil
    (by rw [bigText_length]; unfold MAX_SINGLE_CHUNK_SIZE; omega) ?_
  rw [split_by_sep_bigText, List.foldl_cons, List.foldl_nil,
    chunkStep_big_case 12000 500 (lit "\n\n") [] bigText bigText_length_large]
  rw [List.nil_append, split_large_paragraph_bigText]

theorem bigText_cons : bigText = 'a' :: List.replicate MAX_SINGLE_CHUNK_SIZE 'a' :=
  List.replicate_succ 'a' MAX_SINGLE_CHUNK_SIZE

theorem forceWindows_bigText_cons :
    forceWindows 12000 11500 bigText
      = (('a' :: List.replicate MAX_SINGLE_CHUNK_SIZE 'a').take 12000)
        :: forceWindowsF 12000 11500 MAX_SINGLE_CHUNK_SIZE
            (('a' :: List.replicate MAX_SINGLE_CHUNK_SIZE 'a').drop 11500) := by
  unfold forceWindows
  rw [if_neg (by omega), bigText_length]
  conv_lhs => rw [bigText_cons]
  rw [forceWindowsF_cons]

theorem chunk_text_bigText_ne_nil : chunk_text 12000 500 (lit "\n\n") bigText ≠ [] := by
  rw [chunk_text_bigText, forceWindows_bigText_cons]
  exact List.cons_ne_nil _ _

theorem forceWindowsF_nilF (m st fuel : Nat) : forceWindowsF m st fuel [] = [] := by
  cases fuel <;> rfl

theorem forceWindowsF_replicate_len (m st : Nat) (hst : 1 ≤ st) :
    ∀ (fuel n : Nat), n ≤ fuel →
      (forceWindowsF m st fuel (List.replicate n 'a')).length ≤ n / st + 1 := by
  intro fuel
  induction fuel with
  | zero =>
    intro n hn
    have hz : n = 0 := by omega
    subst hz
    simp [forceWindowsF]
  | succ fuel ih =>
    intro n hn
    cases n with
    | zero => simp [forceWindowsF]
    | succ n2 =>
      rw [List.replicate_succ 'a' n2, forceWindowsF_cons, List.length_cons]
      have hdrop : ('a' :: List.replicate n2 'a').drop st = List.replicate (n2 + 1 - st) 'a' := by
        rw [← List.replicate_succ 'a' n2]
        exact List.drop_replicate ..
      rw [hdrop]
      by_cases hcase : st ≤ n2 + 1
      · have hrec := ih (n2 + 1 - st) (by omega)
        have hdiv : (n2 + 1) / st = (n2 + 1 - st) / st + 1 := by
          conv_lhs => rw [show n2 + 1 = (n2 + 1 - st) + st by omega]
          exact Nat.add_div_right _ (by omega)
        omega
      · have hz : n2 + 1 - st = 0 := by omega
        rw [hz, List.replicate_zero, forceWindowsF_nilF]
        simp

theorem chunk_text_bigText_count :
    (chunk_text 12000 500 (lit "\n\n") bigText).length ≤ 174 := by
  rw [chunk_text_bigText]
  unfold forceWindows
  rw [if_neg (by omega), bigText_length]
  have h := forceWindowsF_replicate_len 12000 11500 (by omega)
    (MAX_SINGLE_CHUNK_SIZE + 1) (MAX_SINGLE_CHUNK_SIZE + 1) le_rfl
  have hdiv : (MAX_SINGLE_CHUNK_SIZE + 1) / 11500 = 173 := by
    unfold MAX_SINGLE_CHUNK_SIZE
    rfl
  show (forceWindowsF 12000 11500 (MAX_SINGLE_CHUNK_SIZE + 1)
    (List.replicate (MAX_SINGLE_CHUNK_SIZE + 1) 'a')).length ≤ 174
  omega

theorem gatherExcept_error_of_mem {E A : Type} :
    ∀ (l : List (Except E A)) (e : E), Except.error e ∈ l →
      ∃ e2, gatherExcept l = Except.error e2 := by
  intro l
  induction l with
  | nil => intro e he; simp at he
  | cons x rest ih =>
    intro e he
    cases x with
    | error e3 => exact ⟨e3, rfl⟩
    | ok a =>
      rcases List.mem_cons.mp he with h | h
      · exact absurd h (by simp)
      · obtain ⟨e2, hg⟩ := ih e h
        refine ⟨e2, ?_⟩
        show (gatherExcept rest).map (fun l => a :: l) = Except.error e2
        rw [hg]
        rfl

theorem gatherExcept_ok_replicate {E A : Type} (a : A) :
    ∀ k, gatherExcept (E := E) (List.replicate k (Except.ok a)) = Except.ok (List.replicate k a) := by
  intro k
  induction k with
  | zero => rfl
  | succ k ih =>
    rw [List.replicate_succ _ k, List.replicate_succ a k]
    show (gatherExcept (List.replicate k (Except.ok a))).map (fun l => a :: l) = _
    rw [ih]
    rfl

theorem gatherChunks_const_ok (env : GenEnv) (a : List Char)
    (hall : ∀ i c, chunkResult env i c = Except.ok a) (chunks : List (List Char)) :
    gatherChunks env chunks = Except.ok (List.replicate chunks.length a) := by
  unfold gatherChunks
  have hmap : chunks.enum.map (fun p => chunkResult env p.1 p.2)
      = List.replicate chunks.enum.length (Except.ok a) := by
    rw [show (fun p : Nat × List Char => chunkResult env p.1 p.2)
        = (fun _ : Nat × List Char => Except.ok (ε := List Char) a) from funext (fun p => hall p.1 p.2)]
    exact List.map_const' _ _
  rw [hmap, gatherExcept_ok_replicate, List.enum_length]

theorem joinSep_replicate_le (sep s : List Char) :
    ∀ k, (joinSep sep (List.replicate k s)).length ≤ k * (s.length + sep.length) := by
  intro k
  induction k with
  | zero => simp [joinSep]
  | succ k ih =>
    rw [List.replicate_succ s k]
    cases k with
    | zero => simp [joinSep]
    | succ k2 =>
      rw [List.replicate_succ s k2]
      show (s ++ (sep ++ joinSep sep (s :: List.replicate k2 s))).length ≤ _
      rw [← List.replicate_succ s k2]
      simp only [List.length_append]
      have hmul : (k2 + 1 + 1) * (s.length + sep.length)
          = (k2 + 1) * (s.length + sep.length) + (s.length + sep.length) :=
        Nat.succ_mul _ _
      omega

theorem countP_preLogs_res (depth n : Nat) : (preLogs depth n).countP isResultEv = 0 :=
  countP_preLogs isResultEv isResultEv_log depth n
theorem countP_preLogs_err (depth n : Nat) : (preLogs depth n).countP isErrEv = 0 :=
  countP_preLogs isErrEv isErrEv_log depth n
theorem countP_pre2Logs_res (depth n : Nat) : (pre2Logs depth n).countP isResultEv = 0 :=
  countP_pre2Logs isResultEv isResultEv_log depth n
theorem countP_pre2Logs_err (depth n : Nat) : (pre2Logs depth n).countP isErrEv = 0 :=
  countP_pre2Logs isErrEv isErrEv_log depth n

theorem gatherChunks_fail_of_mem (env : GenEnv) (chunks : List (List Char))
    (hf : ∃ p ∈ chunks.enum, ∃ e, chunkResult env p.1 p.2 = Except.error e) :
    ∃ e2, gatherChunks env chunks = Except.error e2 := by
  obtain ⟨p, hp, e, hpe⟩ := hf
  unfold gatherChunks
  apply gatherExcept_error_of_mem _ e
  rw [← hpe]
  exact List.mem_map_of_mem _ hp

/-- Claim C1: in the concurrent dispatch of `generate_summary_stream`, if
any one chunk's retry-wrapped backend call ultimately fails, the whole
batch fails: `process_text` propagates an error instead of any merged
value, and the run as a whole emits no `result` event and at least one
terminal `error` event — no chunk is skipped and no partial merge is
built from the chunks that succeeded.  (The synchronous
`_summarize_with_chunks` path processes chunks sequentially, not
concurrently, and is outside this claim; on chunk failure it skips the
chunk, see summarizer.py line 666.) -/
theorem C1_concurrent_batch_failure (env : GenEnv) (text : List Char) (depth : Nat)
    (toks : Nat × Nat)
    (hm : env.hasModel = true)
    (hl : ¬ text.length ≤ MAX_SINGLE_CHUNK_SIZE)
    (hf : ∃ p ∈ (chunk_text 12000 500 (lit "\n\n") text).enum,
      ∃ e, chunkResult env p.1 p.2 = Except.error e) :
    (¬ MAX_RECURSIVE_DEPTH < depth →
      ∃ e, (processText env text depth toks).res = Except.error e) ∧
      (generate_summary_stream env text).countP isResultEv = 0 ∧
      1 ≤ (generate_summary_stream env text).countP isErrEv := by
  obtain ⟨e2, hg⟩ := gatherChunks_fail_of_mem env _ hf
  have hd1 : ¬ MAX_RECURSIVE_DEPTH < 1 := by decide
  have heq := processText_gatherFail env text 1 (0, 0) e2 hd1 hl hg
  have hres : (processText env text 1 (0, 0)).res = Except.error e2 := by rw [heq]
  refine ⟨?_, ?_, ?_⟩
  · intro hd
    exact ⟨e2, by rw [processText_gatherFail env text depth toks e2 hd hl hg]⟩
  · rw [gss_err env text e2 hm hres]
    simp only [heq, List.countP_cons, List.countP_append, List.countP_nil,
      countP_preLogs_res, isResultEv_log, isResultEv_err,
      Bool.false_eq_true, if_true, if_false]
  · rw [gss_err env text e2 hm hres]
    simp only [heq, List.countP_cons, List.countP_append, List.countP_nil,
      countP_preLogs_err, isErrEv_log, isErrEv_err,
      Bool.false_eq_true, if_true, if_false]
    omega

/-- Backend environment in which every chunk call fails on every
attempt. -/
def envFailChunks : GenEnv where
  singleResp := fun _ => Except.ok []
  chunkResp := fun _ _ _ => Except.error (lit "backend down")
  mergeResp := fun _ => Except.ok []
  pLenSingle := fun t => t.length
  pLenChunk := fun _ c => c.length
  pLenMerge := fun s => (joinSep (lit "\n\n") s).length
  hasModel := true

theorem chunkResult_envFailChunks (i : Nat) (c : List Char) :
    chunkResult envFailChunks i c = Except.error (lit "backend down") := rfl

theorem bigText_not_small : ¬ bigText.length ≤ MAX_SINGLE_CHUNK_SIZE := by
  rw [bigText_length]
  omega

theorem enum_chunks_bigText_ne_nil :
    (chunk_text 12000 500 (lit "\n\n") bigText).enum ≠ [] := by
  intro h
  have hlen := congrArg List.length h
  rw [List.enum_length] at hlen
  exact chunk_text_bigText_ne_nil (List.length_eq_zero.mp hlen)

/-- Witness for C1: a 2,000,001-character document with a backend whose
chunk calls always fail produces a run with no `result` event and at
least one `error` event. -/
theorem C1_concurrent_batch_failure_witness :
    (generate_summary_stream envFailChunks bigText).countP isResultEv = 0 ∧
      1 ≤ (generate_summary_stream envFailChunks bigText).countP isErrEv := by
  have h := C1_concurrent_batch_failure envFailChunks bigText 1 (0, 0) rfl bigText_not_small
    (by
      obtain ⟨p, hp⟩ := List.exists_mem_of_ne_nil _ enum_chunks_bigText_ne_nil
      exact ⟨p, hp, lit "backend down", chunkResult_envFailChunks p.1 p.2⟩)
  exact ⟨h.2.1, h.2.2⟩

/-- Claim C6, amended.  In the async pipeline a failure of the final
merge/polish call (`_merge_chunk_summaries_async`) does abort the run:
`process_text` propagates the error and no result is produced.  In the
synchronous path, however, `_merge_chunk_summaries` (summarizer.py lines
751-762) catches the backend failure and returns the locally synthesized
`TextChunker.merge_summaries` fallback instead of failing — see the
counterexample. -/
theorem C6_final_merge_amended (env : GenEnv) (text : List Char) (depth : Nat)
    (toks : Nat × Nat) (sums : List (List Char)) (e : List Char)
    (hd : ¬ MAX_RECURSIVE_DEPTH < depth)
    (hs : ¬ text.length ≤ MAX_SINGLE_CHUNK_SIZE)
    (hg : gatherChunks env (chunk_text 12000 500 (lit "\n\n") text) = Except.ok sums)
    (hm : ¬ MAX_SINGLE_CHUNK_SIZE < (joinSep (lit "\n\n") sums).length)
    (he : env.mergeResp sums = Except.error e) :
    (processText env text depth toks).res = Except.error e ∧
      (∀ (e2 : List Char) (sums2 : List (List Char)) (style : List Char),
        merge_chunk_summaries (Except.error e2) sums2 style = merge_summaries sums2 style) := by
  constructor
  · rw [processText_finalize env text depth toks sums hd hs hg hm]
    simp only [he]
  · intro e2 sums2 style
    rfl

/-- Backend environment in which every chunk call succeeds with the
one-character summary `"s"` but the final merge call fails. -/
def envMergeFail : GenEnv where
  singleResp := fun _ => Except.ok []
  chunkResp := fun _ _ _ => Except.ok (lit "s")
  mergeResp := fun _ => Except.error (lit "merge failed")
  pLenSingle := fun t => t.length
  pLenChunk := fun _ c => c.length
  pLenMerge := fun s => (joinSep (lit "\n\n") s).length
  hasModel := true

theorem chunkResult_envMergeFail (i : Nat) (c : List Char) :
    chunkResult envMergeFail i c = Except.ok (lit "s") := rfl

/-- Witness for C6 (amended): on the 2,000,001-character document, with
every chunk summarized as `"s"` and a failing final merge call, the
async run propagates the merge error. -/
theorem C6_final_merge_amended_witness :
    (processText envMergeFail bigText 1 (0, 0)).res = Except.error (lit "merge failed") := by
  have hK := chunk_text_bigText_count
  have hj := joinSep_replicate_le (lit "\n\n") (lit "s")
    (chunk_text 12000 500 (lit "\n\n") bigText).length
  have hs1 : (lit "s").length = 1 := rfl
  have hs2 : (lit "\n\n").length = 2 := rfl
  rw [hs1, hs2] at hj
  have h := C6_final_merge_amended envMergeFail bigText 1 (0, 0)
    (List.replicate (chunk_text 12000 500 (lit "\n\n") bigText).length (lit "s"))
    (lit "merge failed")
    (by decide) bigText_not_small
    (gatherChunks_const_ok envMergeFail (lit "s") chunkResult_envMergeFail _)
    (by unfold MAX_SINGLE_CHUNK_SIZE; omega)
    rfl
  exact h.1

/-- Counterexample to claim C6 as stated: when the synchronous final
merge backend call fails, `_merge_chunk_summaries` returns the local
`merge_summaries` fallback — here the paragraph-style concatenation
`"A\n\nB"` — instead of failing the run with the error. -/
theorem C6_counterexample :
    merge_chunk_summaries (Except.error (lit "boom")) [lit "A", lit "B"] (lit "paragraph")
      = lit "A\n\nB" := by
  decide
